import Mathlib

/-!
Verification development for the probe-scheduling and execution engine of
the model-check repository.

The definitions below are shallow embeddings of the TypeScript source:
  * `src/lib/detection/model-state.ts` (`deriveModelState`,
    `resetModelsDetectionState`, `persistDetectionResult`),
  * `src/lib/queue/queue.ts` (in-memory queue backend, BullMQ-backed
    `pauseAndDrainQueue`),
  * `src/lib/queue/worker.ts` (`acquireSlots`, `releaseSlots`,
    `runDetectionPipeline`, `processMemoryQueue`),
  * `src/lib/queue/detection-service.ts` (the `trigger*` entry points and
    `syncChannelModels`).

Database tables become lists of row structures; a Prisma transaction
becomes a pure function returning `Option`/`Except`, with `none`/`.error`
meaning the transaction aborted and left the store unchanged.  Monotone
wall-clock readings, randomness, the HTTP probe and the upstream model-list
fetch enter as explicit oracle parameters.  Concurrency enters through
small-step transition relations over explicitly interleaved worker states.
-/

namespace ModelCheck

/-! ## Enumerations (Prisma enums `EndpointType`, `CheckStatus`, and the
`HealthStatus` used by `model-state.ts`) -/

inductive EndpointType where
  | CHAT | CLAUDE | GEMINI | CODEX | IMAGE
  deriving DecidableEq, Repr

inductive CheckStatus where
  | SUCCESS | FAIL
  deriving DecidableEq, Repr

inductive HealthStatus where
  | HEALTHY | PARTIAL | UNHEALTHY | UNKNOWN
  deriving DecidableEq, Repr

/-- Enum member name, as a TypeScript template string renders it. -/
def EndpointType.name : EndpointType → String
  | .CHAT => "CHAT"
  | .CLAUDE => "CLAUDE"
  | .GEMINI => "GEMINI"
  | .CODEX => "CODEX"
  | .IMAGE => "IMAGE"

/-! ## Job and result payloads (`src/lib/detection/types.ts`) -/

structure DetectionJobData where
  channelId : String
  modelId : String
  modelName : String
  baseUrl : String
  apiKey : String
  proxy : Option String
  endpointType : EndpointType
  deriving DecidableEq, Repr

structure DetectionResult where
  status : CheckStatus
  latency : Nat
  statusCode : Option Int
  errorMsg : Option String
  endpointType : EndpointType
  responseContent : Option String
  deriving DecidableEq, Repr

/-! ## Database rows -/

structure ChannelRow where
  id : String
  name : String
  baseUrl : String
  apiKey : String
  proxy : Option String
  enabled : Bool
  deriving DecidableEq, Repr

structure ModelRow where
  id : String
  channelId : String
  modelName : String
  detectedEndpoints : List String
  healthStatus : HealthStatus
  lastStatus : Option Bool
  lastLatency : Option Nat
  lastCheckedAt : Option Nat
  deriving DecidableEq, Repr

structure ModelEndpointRow where
  modelId : String
  endpointType : EndpointType
  status : CheckStatus
  latency : Nat
  statusCode : Option Int
  errorMsg : Option String
  responseContent : Option String
  checkedAt : Nat
  deriving DecidableEq, Repr

structure CheckLogRow where
  modelId : String
  endpointType : EndpointType
  status : CheckStatus
  latency : Nat
  statusCode : Option Int
  errorMsg : Option String
  responseContent : Option String
  createdAt : Nat
  deriving DecidableEq, Repr

/-- The persistent store: the tables the detection core touches. -/
structure Store where
  channels : List ChannelRow
  models : List ModelRow
  modelEndpoints : List ModelEndpointRow
  checkLogs : List CheckLogRow
  deriving DecidableEq, Repr

/-! ## `model-state.ts` -/

/-- `deriveModelState` of `model-state.ts`: aggregate endpoint statuses into
the model's health state. -/
def deriveModelState (statuses : List CheckStatus) :
    HealthStatus × Option Bool :=
  if statuses.length = 0 then
    (HealthStatus.UNKNOWN, none)
  else
    let hasSuccess := statuses.any (fun status => status = CheckStatus.SUCCESS)
    let hasFail := statuses.any (fun status => status = CheckStatus.FAIL)
    if hasSuccess && hasFail then
      (HealthStatus.PARTIAL, some true)
    else if hasSuccess then
      (HealthStatus.HEALTHY, some true)
    else
      (HealthStatus.UNHEALTHY, some false)

/-- Key test of the `ModelEndpoint` unique constraint `(modelId, endpointType)`. -/
def epKeyMatches (modelId : String) (endpointType : EndpointType)
    (r : ModelEndpointRow) : Bool :=
  r.modelId = modelId && r.endpointType = endpointType

/-- The `tx.modelEndpoint.upsert` step of `persistDetectionResult`:
update the row keyed `(data.modelId, data.endpointType)` in place when it
exists, otherwise insert a fresh row. -/
def upsertModelEndpoint (rows : List ModelEndpointRow)
    (data : DetectionJobData) (result : DetectionResult) (now : Nat) :
    List ModelEndpointRow :=
  if rows.any (epKeyMatches data.modelId data.endpointType) then
    rows.map (fun r =>
      if epKeyMatches data.modelId data.endpointType r then
        { r with
          status := result.status
          latency := result.latency
          statusCode := result.statusCode
          errorMsg := result.errorMsg
          responseContent := result.responseContent
          checkedAt := now }
      else r)
  else
    rows ++ [{ modelId := data.modelId
               endpointType := data.endpointType
               status := result.status
               latency := result.latency
               statusCode := result.statusCode
               errorMsg := result.errorMsg
               responseContent := result.responseContent
               checkedAt := now }]

/-- Endpoint statuses read back inside the transaction
(`tx.modelEndpoint.findMany({where: {modelId}, select: {status}})`). -/
def endpointStatuses (rows : List ModelEndpointRow) (modelId : String) :
    List CheckStatus :=
  (rows.filter (fun r => r.modelId = modelId)).map (fun r => r.status)

/-- `persistDetectionResult` of `model-state.ts`: one transaction that
upserts the `ModelEndpoint` row, appends a `CheckLog`, re-derives the model
state from all endpoint rows of the model, and updates the `Model` row.
`none` models the transaction aborting (Prisma throws when
`tx.model.update` finds no row), leaving the store unchanged. -/
def persistDetectionResult (data : DetectionJobData)
    (result : DetectionResult) (now : Nat) (s : Store) : Option Store :=
  let eps := upsertModelEndpoint s.modelEndpoints data result now
  let logs := s.checkLogs ++
    [{ modelId := data.modelId
       endpointType := result.endpointType
       status := result.status
       latency := result.latency
       statusCode := result.statusCode
       errorMsg := result.errorMsg
       responseContent := result.responseContent
       createdAt := now }]
  let derived := deriveModelState (endpointStatuses eps data.modelId)
  if s.models.any (fun m => m.id = data.modelId) then
    some { s with
           modelEndpoints := eps
           checkLogs := logs
           models := s.models.map (fun m =>
             if m.id = data.modelId then
               { m with
                 healthStatus := derived.1
                 lastStatus := derived.2
                 lastLatency := some result.latency
                 lastCheckedAt := some now }
             else m) }
  else none

/-- Transactional runner: observable effect of calling
`persistDetectionResult` from the worker.  On abort the store is the
original one (Prisma `$transaction` rollback) and the failure is reported. -/
def runPersistDetectionResult (data : DetectionJobData)
    (result : DetectionResult) (now : Nat) (s : Store) : Store × Bool :=
  match persistDetectionResult data result now s with
  | some s' => (s', true)
  | none => (s, false)

/-! ## Progress events (`progress-bus.ts`) and the worker pipeline
(`worker.ts`) -/

structure DetectionProgressEvent where
  channelId : String
  modelId : String
  modelName : String
  endpointType : EndpointType
  status : CheckStatus
  latency : Nat
  timestamp : Nat
  isModelComplete : Bool
  deriving DecidableEq, Repr

/-- `buildStoppedResult` of `worker.ts`. -/
def buildStoppedResult (data : DetectionJobData) : DetectionResult :=
  { status := CheckStatus.FAIL
    latency := 0
    statusCode := none
    errorMsg := some "Detection stopped by user"
    endpointType := data.endpointType
    responseContent := none }

/-- Progress payload the worker publishes after a probe. -/
def mkProgressEvent (data : DetectionJobData) (status : CheckStatus)
    (latency : Nat) (now : Nat) (isModelComplete : Bool) :
    DetectionProgressEvent :=
  { channelId := data.channelId
    modelId := data.modelId
    modelName := data.modelName
    endpointType := data.endpointType
    status := status
    latency := latency
    timestamp := now
    isModelComplete := isModelComplete }

/-- `runDetectionPipeline` of `worker.ts`, as a function of the store and
the list of already-published progress events.  Oracle inputs stand for the
worker's environment reads:
  * `stopAtDequeue` / `stopAfterAcquire` — the two `isDetectionStopped()`
    reads (the flag may be set concurrently between them);
  * `probe` — the outcome of `executeDetection` (`Except.error` models the
    call rejecting, whose message feeds the catch handler);
  * `hasPending` — the `hasPendingJobsForModel(modelId, jobId)` read;
  * `persistErrMsg` — the message of the error thrown when the persistence
    transaction aborts;
  * `now` — the clock.
Admission acquire/release and the jitter sleep do not touch the store and
are modelled by the separate semaphore systems below. -/
def runDetectionPipeline (data : DetectionJobData)
    (stopAtDequeue stopAfterAcquire : Bool)
    (probe : Except String DetectionResult) (hasPending : Bool)
    (persistErrMsg : String) (now : Nat)
    (s : Store) (published : List DetectionProgressEvent) :
    Store × List DetectionProgressEvent × DetectionResult :=
  -- first checkpoint: at dequeue, before acquiring slots
  if stopAtDequeue then
    (s, published, buildStoppedResult data)
  -- second checkpoint: immediately after acquiring slots
  else if stopAfterAcquire then
    (s, published, buildStoppedResult data)
  else
    match probe with
    | Except.ok result =>
      match persistDetectionResult data result now s with
      | some s' =>
        let ev := mkProgressEvent data result.status result.latency now
          (!hasPending)
        (s', published ++ [ev], result)
      | none =>
        -- persistence threw: catch handler builds a FAIL result, retries
        -- the persist with it and publishes best-effort
        runPipelineCatch data hasPending persistErrMsg now s published
    | Except.error msg =>
      runPipelineCatch data hasPending msg now s published
where
  /-- The `catch` branch of `runDetectionPipeline`. -/
  runPipelineCatch (data : DetectionJobData) (hasPending : Bool)
      (msg : String) (now : Nat) (s : Store)
      (published : List DetectionProgressEvent) :
      Store × List DetectionProgressEvent × DetectionResult :=
    let failResult : DetectionResult :=
      { status := CheckStatus.FAIL
        latency := 0
        statusCode := none
        errorMsg := some msg
        endpointType := data.endpointType
        responseContent := none }
    match persistDetectionResult data failResult now s with
    | some s' =>
      let ev := mkProgressEvent data failResult.status failResult.latency
        now (!hasPending)
      (s', published ++ [ev], failResult)
    | none => (s, published, failResult)

/-! ## In-memory queue backend (`queue.ts`, memory branch) -/

inductive MemoryJobState where
  | waiting | active
  deriving DecidableEq, Repr

structure MemoryJob where
  id : String
  data : DetectionJobData
  state : MemoryJobState
  deriving DecidableEq, Repr

/-- The module-level state of the in-memory queue: `memoryJobs` (a JS `Map`
in insertion order), `memoryWaitingIds`, `memoryActiveIds`, the completion
counters and the stopped flag. -/
structure MemQueue where
  jobs : List (String × MemoryJob)
  waitingIds : List String
  activeIds : List String
  completedCount : Nat
  failedCount : Nat
  stopped : Bool
  deriving DecidableEq, Repr

def MemQueue.empty : MemQueue :=
  { jobs := [], waitingIds := [], activeIds := []
    completedCount := 0, failedCount := 0, stopped := false }

/-- JS `Map.get`. -/
def mapGet (m : List (String × MemoryJob)) (k : String) : Option MemoryJob :=
  (m.find? (fun kv => kv.1 = k)).map (fun kv => kv.2)

/-- JS `Map.set`: replace in place when the key exists, append otherwise. -/
def mapSet (m : List (String × MemoryJob)) (k : String) (v : MemoryJob) :
    List (String × MemoryJob) :=
  if m.any (fun kv => kv.1 = k) then
    m.map (fun kv => if kv.1 = k then (k, v) else kv)
  else m ++ [(k, v)]

/-- JS `Map.delete`. -/
def mapDelete (m : List (String × MemoryJob)) (k : String) :
    List (String × MemoryJob) :=
  m.filter (fun kv => kv.1 ≠ k)

/-- The job-identifier string built by `createMemoryJob`;
`rand` stands for the `Math.random().toString(36).slice(2, 8)` suffix. -/
def mkMemoryJobId (data : DetectionJobData) (now rand : Nat) : String :=
  data.channelId ++ "-" ++ data.modelId ++ "-" ++ data.endpointType.name ++
    "-" ++ toString now ++ "-" ++ toString rand

/-- `createMemoryJob` of `queue.ts`. -/
def createMemoryJob (q : MemQueue) (data : DetectionJobData)
    (now rand : Nat) : MemQueue × String :=
  let id := mkMemoryJobId data now rand
  let job : MemoryJob := { id := id, data := data, state := .waiting }
  ({ q with
     jobs := mapSet q.jobs id job
     waitingIds := q.waitingIds ++ [id] }, id)

/-- `resetMemoryCountersIfIdle` of `queue.ts`. -/
def resetMemoryCountersIfIdle (q : MemQueue) : MemQueue :=
  if q.waitingIds.length = 0 && q.activeIds.length = 0 then
    { q with completedCount := 0, failedCount := 0 }
  else q

/-- `addDetectionJobsBulk` of `queue.ts` (memory branch): one
`createMemoryJob` per payload; `rands` supplies the per-job random suffix. -/
def addDetectionJobsBulk (q : MemQueue) (jobs : List DetectionJobData)
    (now : Nat) (rands : List Nat) : MemQueue × List String :=
  let q0 := resetMemoryCountersIfIdle q
  go q0 (jobs.zip rands)
where
  go (q : MemQueue) : List (DetectionJobData × Nat) → MemQueue × List String
    | [] => (q, [])
    | (data, rand) :: rest =>
      let (q', id) := createMemoryJob q data now rand
      let (q'', ids) := go q' rest
      (q'', id :: ids)

/-- `getTestingModelIds` of `queue.ts` (memory branch): distinct `modelId`s
over waiting ∪ active, in first-seen order (a JS `Set`). -/
def getTestingModelIds (q : MemQueue) : List String :=
  ((q.waitingIds ++ q.activeIds).filterMap
    (fun id => (mapGet q.jobs id).map (fun job => job.data.modelId))).dedup

/-- `isDetectionStopped` (memory branch). -/
def isDetectionStoppedMem (q : MemQueue) : Bool := q.stopped

/-- `clearStoppedFlag` (memory branch). -/
def clearStoppedFlag (q : MemQueue) : MemQueue := { q with stopped := false }

/-- `pullNextMemoryJob` of `queue.ts`: return nothing when stopped;
otherwise scan the waiting list, dropping ids whose job is missing or no
longer waiting, skip jobs the `canTake` predicate refuses, activate and
return the first acceptable one. -/
def pullNextMemoryJob (q : MemQueue)
    (canTake : DetectionJobData → Bool) :
    MemQueue × Option (String × DetectionJobData) :=
  if q.stopped then (q, none) else go q.waitingIds q
where
  go : List String → MemQueue → MemQueue × Option (String × DetectionJobData)
    | [], q => (q, none)
    | id :: rest, q =>
      match mapGet q.jobs id with
      | none =>
        go rest { q with waitingIds := q.waitingIds.erase id }
      | some job =>
        if job.state ≠ .waiting then
          go rest { q with waitingIds := q.waitingIds.erase id }
        else if !canTake job.data then
          go rest q
        else
          ({ q with
             waitingIds := q.waitingIds.erase id
             jobs := mapSet q.jobs id { job with state := .active }
             activeIds := q.activeIds ++ [id] },
           some (id, job.data))

/-- `completeMemoryJob` of `queue.ts`. -/
def completeMemoryJob (q : MemQueue) (jobId : String) (success : Bool) :
    MemQueue :=
  match mapGet q.jobs jobId with
  | none => q
  | some _ =>
    { q with
      activeIds := q.activeIds.erase jobId
      jobs := mapDelete q.jobs jobId
      completedCount := if success then q.completedCount + 1 else q.completedCount
      failedCount := if success then q.failedCount else q.failedCount + 1 }

/-! ## Detection service (`detection-service.ts`), in-memory queue mode

The imported collaborators enter as oracle parameters:
  * `ept` — `getEndpointsToTest` from `@/lib/detection` (its source file is
    not part of the snapshot; every theorem quantifies over it);
  * `fm` — `fetchModels(baseUrl, apiKey, proxy)`, the upstream model-list
    call;
  * `genId` — the Prisma id generator for rows inserted by `createMany`;
  * `now`, `rand` — clock and randomness for queue job ids. -/

structure FetchModelsResult where
  models : List String
  error : Option String
  deriving DecidableEq, Repr

structure SyncResult where
  added : Nat
  removed : Nat
  total : Nat
  deriving DecidableEq, Repr

structure ChannelSyncResult where
  channelId : String
  added : Nat
  total : Nat
  deriving DecidableEq, Repr

/-- Store plus in-memory queue: everything the service mutates. -/
structure SysState where
  store : Store
  queue : MemQueue
  deriving DecidableEq, Repr

/-- Row inserted by `prisma.model.createMany({channelId, modelName})`: all
other columns take their schema defaults.

Modelled from the spec: the Prisma schema file is not in the snapshot; per
§3 a model with no endpoint rows is `UNKNOWN`, and the SQL migration gives
`detected_endpoints` default `[]` and nullable `last_*` columns. -/
def freshModelRow (genId : String → String → String)
    (channelId modelName : String) : ModelRow :=
  { id := genId channelId modelName
    channelId := channelId
    modelName := modelName
    detectedEndpoints := []
    healthStatus := HealthStatus.UNKNOWN
    lastStatus := none
    lastLatency := none
    lastCheckedAt := none }

/-- `syncChannelModels` of `detection-service.ts`: fetch the remote model
list and insert the names not present yet; never deletes.  (With
`channel_key_id` null, the `(channelId, modelName, channelKeyId)` unique
constraint never fires on these rows, so `skipDuplicates` skips nothing.) -/
def syncChannelModels
    (fm : String → String → Option String → FetchModelsResult)
    (genId : String → String → String)
    (channelId : String) (s : Store) : Except String (Store × SyncResult) :=
  match s.channels.find? (fun c => c.id = channelId) with
  | none => Except.error ("Channel not found: " ++ channelId)
  | some channel =>
    let result := fm channel.baseUrl channel.apiKey channel.proxy
    match result.error with
    | some e => Except.error ("获取模型列表失败: " ++ e)
    | none =>
      let remoteModels := result.models
      if remoteModels.length = 0 then
        Except.ok (s, { added := 0, removed := 0, total := 0 })
      else
        let existingNames :=
          (s.models.filter (fun m => m.channelId = channelId)).map
            (fun m => m.modelName)
        let toAdd := remoteModels.filter
          (fun name => !existingNames.contains name)
        let s' := { s with
          models := s.models ++
            toAdd.map (freshModelRow genId channelId) }
        Except.ok (s',
          { added := toAdd.length, removed := 0,
            total := remoteModels.length })

/-- The reset the `trigger*` entry points apply before enqueueing
(`prisma.model.updateMany({..., data: {lastStatus: null, lastLatency:
null, lastCheckedAt: null, detectedEndpoints: []}})`).  Note: it touches
neither `healthStatus` nor the `ModelEndpoint` rows. -/
def resetModelRowForDetection (m : ModelRow) : ModelRow :=
  { m with
    lastStatus := none
    lastLatency := none
    lastCheckedAt := none
    detectedEndpoints := [] }

/-- One probe job per `(channel, model, endpointType)`. -/
def mkJob (c : ChannelRow) (m : ModelRow) (ep : EndpointType) :
    DetectionJobData :=
  { channelId := c.id
    modelId := m.id
    modelName := m.modelName
    baseUrl := c.baseUrl
    apiKey := c.apiKey
    proxy := c.proxy
    endpointType := ep }

/-- Models of a channel, in store order (the Prisma `include: {models}`). -/
def channelModels (s : Store) (channelId : String) : List ModelRow :=
  s.models.filter (fun m => m.channelId = channelId)

/-- Result record of `triggerFullDetection` / `triggerSelectiveDetection`. -/
structure FullDetectionResult where
  channelCount : Nat
  modelCount : Nat
  jobIds : List String
  syncResults : Option (List ChannelSyncResult)
  deriving DecidableEq, Repr

/-- The per-channel sync loop shared by `triggerFullDetection` and
`triggerSelectiveDetection`: each `syncChannelModels` runs in a
`try/catch`; failures are skipped, successes record `{channelId, added,
total}`. -/
def syncLoop (fm : String → String → Option String → FetchModelsResult)
    (genId : String → String → String)
    (channels : List ChannelRow) (s : Store) :
    Store × List ChannelSyncResult :=
  match channels with
  | [] => (s, [])
  | c :: rest =>
    match syncChannelModels fm genId c.id s with
    | Except.ok (s', r) =>
      let (s'', rs) := syncLoop fm genId rest s'
      (s'', { channelId := c.id, added := r.added, total := r.total } :: rs)
    | Except.error _ => syncLoop fm genId rest s

/-- `triggerFullDetection` of `detection-service.ts` (memory queue mode):
clear the stopped flag, reset the models of all enabled channels,
optionally sync each enabled channel, then enqueue one job per
`(model, endpointType)` over the re-fetched enabled channels. -/
def triggerFullDetection
    (ept : String → List EndpointType)
    (fm : String → String → Option String → FetchModelsResult)
    (genId : String → String → String)
    (rand : Nat → Nat) (now : Nat)
    (syncModelsFirst : Bool) (s : SysState) :
    SysState × FullDetectionResult :=
  let q1 := clearStoppedFlag s.queue
  let channels := s.store.channels.filter (fun c => c.enabled)
  let channelIds := channels.map (fun c => c.id)
  let store1 :=
    if channelIds.length > 0 then
      { s.store with
        models := s.store.models.map (fun m =>
          if channelIds.contains m.channelId then
            resetModelRowForDetection m
          else m) }
    else s.store
  let (store2, syncResults) :=
    if syncModelsFirst then
      let (st, rs) := syncLoop fm genId channels store1
      (st, some rs)
    else (store1, none)
  let channelsWithModels := store2.channels.filter (fun c => c.enabled)
  let jobs := channelsWithModels.flatMap (fun c =>
    (channelModels store2 c.id).flatMap (fun m : ModelRow =>
      (ept m.modelName).map (mkJob c m)))
  if jobs.length = 0 then
    ({ store := store2, queue := q1 },
     { channelCount := 0, modelCount := 0, jobIds := []
       syncResults := syncResults })
  else
    let (q2, jobIds) := addDetectionJobsBulk q1 jobs now
      ((List.range jobs.length).map rand)
    ({ store := store2, queue := q2 },
     { channelCount := channelsWithModels.length
       modelCount := jobs.length
       jobIds := jobIds
       syncResults := syncResults })

/-- Result record of `triggerChannelDetection`. -/
structure ChannelDetectionResult where
  modelCount : Nat
  jobIds : List String
  deriving DecidableEq, Repr

/-- `triggerChannelDetection` of `detection-service.ts` (memory queue
mode).  The returned state carries the effects performed before a throw
(only the stopped-flag clear precedes the lookups). -/
def triggerChannelDetection
    (ept : String → List EndpointType)
    (rand : Nat → Nat) (now : Nat)
    (channelId : String) (modelIds : Option (List String))
    (s : SysState) : SysState × Except String ChannelDetectionResult :=
  let q1 := clearStoppedFlag s.queue
  match s.store.channels.find? (fun c => c.id = channelId) with
  | none =>
    ({ s with queue := q1 },
     Except.error ("Channel not found: " ++ channelId))
  | some channel =>
    if !channel.enabled then
      ({ s with queue := q1 },
       Except.error ("Channel is disabled: " ++ channelId))
    else
      let models := channelModels s.store channelId
      let modelsToTest : List ModelRow :=
        match modelIds with
        | some ids => models.filter (fun m => ids.contains m.id)
        | none => models
      let store1 :=
        if modelsToTest.length > 0 then
          let idsToReset := modelsToTest.map (fun m => m.id)
          { s.store with
            models := s.store.models.map (fun m =>
              if idsToReset.contains m.id then
                resetModelRowForDetection m
              else m) }
        else s.store
      let jobs := modelsToTest.flatMap (fun m : ModelRow =>
        (ept m.modelName).map (mkJob channel m))
      if jobs.length = 0 then
        ({ store := store1, queue := q1 },
         Except.ok { modelCount := 0, jobIds := [] })
      else
        let (q2, jobIds) := addDetectionJobsBulk q1 jobs now
          ((List.range jobs.length).map rand)
        ({ store := store1, queue := q2 },
         Except.ok { modelCount := jobs.length, jobIds := jobIds })

/-- `triggerModelDetection` of `detection-service.ts` (memory queue mode).
The nested channel lookup models the Prisma `include: {channel: true}`;
the foreign key makes the `none` channel case unreachable on real stores. -/
def triggerModelDetection
    (ept : String → List EndpointType)
    (rand : Nat → Nat) (now : Nat)
    (modelId : String) (s : SysState) :
    SysState × Except String (List String) :=
  let q1 := clearStoppedFlag s.queue
  match s.store.models.find? (fun m => m.id = modelId) with
  | none =>
    ({ s with queue := q1 },
     Except.error ("Model not found: " ++ modelId))
  | some model =>
    match s.store.channels.find? (fun c => c.id = model.channelId) with
    | none =>
      ({ s with queue := q1 },
       Except.error ("Channel not found: " ++ model.channelId))
    | some channel =>
      if !channel.enabled then
        ({ s with queue := q1 },
         Except.error ("Channel is disabled: " ++ channel.id))
      else
        let store1 := { s.store with
          models := s.store.models.map (fun m =>
            if m.id = modelId then resetModelRowForDetection m else m) }
        let jobs := (ept model.modelName).map (mkJob channel model)
        let (q2, jobIds) := addDetectionJobsBulk q1 jobs now
          ((List.range jobs.length).map rand)
        ({ store := store1, queue := q2 }, Except.ok jobIds)

/-- `triggerSelectiveDetection` of `detection-service.ts` (memory queue
mode).  `modelIdsByChannel` is the `Record<string, string[]>` argument; a
present key filters that channel's models (an empty list filters out all
of them, matching the truthy check in the source). -/
def triggerSelectiveDetection
    (ept : String → List EndpointType)
    (fm : String → String → Option String → FetchModelsResult)
    (genId : String → String → String)
    (rand : Nat → Nat) (now : Nat)
    (channelIds : Option (List String))
    (modelIdsByChannel : Option (List (String × List String)))
    (s : SysState) : SysState × FullDetectionResult :=
  let q1 := clearStoppedFlag s.queue
  match channelIds with
  | none =>
    triggerFullDetection ept fm genId rand now true { s with queue := q1 }
  | some ids =>
    if ids.length = 0 then
      triggerFullDetection ept fm genId rand now true { s with queue := q1 }
    else
      let channels := s.store.channels.filter
        (fun c => ids.contains c.id && c.enabled)
      if channels.length = 0 then
        ({ s with queue := q1 },
         { channelCount := 0, modelCount := 0, jobIds := []
           syncResults := none })
      else
        let (store2, syncResults) := syncLoop fm genId channels s.store
        let channelsWithModels := store2.channels.filter
          (fun c => ids.contains c.id && c.enabled)
        let jobs := channelsWithModels.flatMap (fun c =>
          let models := channelModels store2 c.id
          let modelsToTest : List ModelRow :=
            match modelIdsByChannel.bind
              (fun kvs => (kvs.find? (fun kv => kv.1 = c.id)).map
                (fun kv => kv.2)) with
            | some selected => models.filter (fun m => selected.contains m.id)
            | none => models
          modelsToTest.flatMap (fun m : ModelRow =>
            (ept m.modelName).map (mkJob c m)))
        if jobs.length = 0 then
          ({ store := store2, queue := q1 },
           { channelCount := 0, modelCount := 0, jobIds := []
             syncResults := some syncResults })
        else
          let (q2, jobIds) := addDetectionJobsBulk q1 jobs now
            ((List.range jobs.length).map rand)
          ({ store := store2, queue := q2 },
           { channelCount := channelsWithModels.length
             modelCount := jobs.length
             jobIds := jobIds
             syncResults := some syncResults })

/-! ## Redis-backed queue drain (`queue.ts`, `pauseAndDrainQueue`, Redis
branch) -/

/-- `DETECTION_STOPPED_TTL` of `constants.ts` (seconds). -/
def DETECTION_STOPPED_TTL : Nat := 300

/-- A BullMQ job as `pauseAndDrainQueue` sees it: `job.token` is the
worker lock token, present only while a worker holds the job. -/
structure RedisJob where
  id : Nat
  data : DetectionJobData
  token : Option String
  deriving DecidableEq, Repr

/-- The Redis-side state `pauseAndDrainQueue` manipulates: the BullMQ job
sets, the pause marker, the stopped flag (value with TTL) and every
`detection:semaphore:*` counter key. -/
structure RedisQueueState where
  waiting : List RedisJob
  delayed : List RedisJob
  active : List RedisJob
  failedJobs : List (RedisJob × String)
  paused : Bool
  stoppedKey : Option (String × Nat)
  semaphoreKeys : List (String × Int)
  deriving DecidableEq, Repr

/-- Reading a Redis counter key: an absent key reads as 0. -/
def redisKeyRead (keys : List (String × Int)) (k : String) : Int :=
  ((keys.find? (fun kv => kv.1 = k)).map (fun kv => kv.2)).getD 0

/-- `pauseAndDrainQueue` of `queue.ts` (Redis branch): set the stopped
flag with its TTL, pause, fetch up to the first 1001 active jobs
(`getJobs(["active"], 0, 1000)` is range-inclusive), move the ones that
carry a worker token to failed with `"Detection stopped by user"` and
remove the rest, `drain(true)` the waiting and delayed sets, delete every
`detection:semaphore:*` key, and resume. -/
def pauseAndDrainQueue (s : RedisQueueState) : RedisQueueState × Nat :=
  let s1 := { s with stoppedKey := some ("1", DETECTION_STOPPED_TTL)
                     paused := true }
  let waiting := s1.waiting.length
  let delayed := s1.delayed.length
  let activeJobs := s1.active.take 1001
  let activeCount := activeJobs.length
  let s2 := { s1 with
    active := s1.active.drop 1001
    failedJobs := s1.failedJobs ++
      (activeJobs.filter (fun j : RedisJob => j.token.isSome)).map
        (fun j => (j, "Detection stopped by user")) }
  let s3 := { s2 with waiting := [], delayed := [] }
  let s4 := { s3 with semaphoreKeys := [] }
  let cleared := waiting + delayed + activeCount
  ({ s4 with paused := false }, cleared)

/-! ## Admission slot release (`worker.ts`, `releaseSlots`, Redis branch) -/

/-- A Redis counter key as a value: `none` is an absent key. -/
abbrev RedisCounter := Option Int

/-- Value stored by `DECR`: an absent key is created at 0 first. -/
def redisDecrValue (v : RedisCounter) : Int := v.getD 0 - 1

/-- `releaseSlots` of `worker.ts`: pipeline-`DECR` both the channel and the
global semaphore key, then delete any key whose decremented value is at or
below zero.  Returns the final pair of key states. -/
def releaseSlots (chanKey globalKey : RedisCounter) :
    RedisCounter × RedisCounter :=
  let channelVal := redisDecrValue chanKey
  let globalVal := redisDecrValue globalKey
  (if channelVal ≤ 0 then none else some channelVal,
   if globalVal ≤ 0 then none else some globalVal)

/-! ## Admission bound, Redis backend (`worker.ts`, `acquireSlots` /
`releaseSlots`)

Each worker executing `acquireSlots` issues a sequence of atomic Redis
commands; the program counter records how far it got.  `TTL` expiry of the
semaphore keys (crash cleanup, 120 s) is outside the model, which has no
real time. -/

inductive WorkerPc where
  /-- not inside `acquireSlots`, holding nothing -/
  | idle
  /-- `INCR global` returned ≤ max: about to `INCR` the channel key -/
  | gotGlobal
  /-- `INCR global` returned > max: about to `DECR global` and retry -/
  | backoffGlobal
  /-- holds both slots: the PROBING state -/
  | holding
  /-- `INCR channel` returned > limit: about to `DECR channel` -/
  | backoffChanC
  /-- channel decrement done: about to `DECR global` and retry -/
  | backoffChanG
  deriving DecidableEq, Repr

structure WorkerSt where
  pc : WorkerPc
  cid : String
  deriving DecidableEq, Repr

/-- Shared semaphore counters plus the interleaved worker states. -/
structure SemSys where
  globalCtr : Int
  chanCtr : String → Int
  workers : List WorkerSt

/-- One atomic Redis command of `acquireSlots`/`releaseSlots`, executed by
the worker between `l₁` and `l₂`. -/
inductive SemStep (maxG maxC : Nat) : SemSys → SemSys → Prop
  /-- `INCR global` observed `≤ maxGlobalConcurrency` -/
  | incrGlobalOk (l₁ l₂ : List WorkerSt) (c : String) (g : Int)
      (ch : String → Int) (hg : g + 1 ≤ (maxG : Int)) :
      SemStep maxG maxC
        ⟨g, ch, l₁ ++ [⟨.idle, c⟩] ++ l₂⟩
        ⟨g + 1, ch, l₁ ++ [⟨.gotGlobal, c⟩] ++ l₂⟩
  /-- `INCR global` observed `> maxGlobalConcurrency` -/
  | incrGlobalFail (l₁ l₂ : List WorkerSt) (c : String) (g : Int)
      (ch : String → Int) (hg : g + 1 > (maxG : Int)) :
      SemStep maxG maxC
        ⟨g, ch, l₁ ++ [⟨.idle, c⟩] ++ l₂⟩
        ⟨g + 1, ch, l₁ ++ [⟨.backoffGlobal, c⟩] ++ l₂⟩
  /-- the compensating `DECR global` before the retry sleep -/
  | decrGlobalBackoff (l₁ l₂ : List WorkerSt) (c : String) (g : Int)
      (ch : String → Int) :
      SemStep maxG maxC
        ⟨g, ch, l₁ ++ [⟨.backoffGlobal, c⟩] ++ l₂⟩
        ⟨g - 1, ch, l₁ ++ [⟨.idle, c⟩] ++ l₂⟩
  /-- `INCR channel` observed `≤ channelConcurrency`: both slots held -/
  | incrChanOk (l₁ l₂ : List WorkerSt) (c : String) (g : Int)
      (ch : String → Int) (hc : ch c + 1 ≤ (maxC : Int)) :
      SemStep maxG maxC
        ⟨g, ch, l₁ ++ [⟨.gotGlobal, c⟩] ++ l₂⟩
        ⟨g, Function.update ch c (ch c + 1), l₁ ++ [⟨.holding, c⟩] ++ l₂⟩
  /-- `INCR channel` observed `> channelConcurrency` -/
  | incrChanFail (l₁ l₂ : List WorkerSt) (c : String) (g : Int)
      (ch : String → Int) (hc : ch c + 1 > (maxC : Int)) :
      SemStep maxG maxC
        ⟨g, ch, l₁ ++ [⟨.gotGlobal, c⟩] ++ l₂⟩
        ⟨g, Function.update ch c (ch c + 1), l₁ ++ [⟨.backoffChanC, c⟩] ++ l₂⟩
  /-- the compensating `DECR channel` -/
  | decrChanBackoff (l₁ l₂ : List WorkerSt) (c : String) (g : Int)
      (ch : String → Int) :
      SemStep maxG maxC
        ⟨g, ch, l₁ ++ [⟨.backoffChanC, c⟩] ++ l₂⟩
        ⟨g, Function.update ch c (ch c - 1), l₁ ++ [⟨.backoffChanG, c⟩] ++ l₂⟩
  /-- the compensating `DECR global` before the retry sleep -/
  | decrChanGlobal (l₁ l₂ : List WorkerSt) (c : String) (g : Int)
      (ch : String → Int) :
      SemStep maxG maxC
        ⟨g, ch, l₁ ++ [⟨.backoffChanG, c⟩] ++ l₂⟩
        ⟨g - 1, ch, l₁ ++ [⟨.idle, c⟩] ++ l₂⟩
  /-- `releaseSlots`: the pipelined `DECR` of both keys (the subsequent
  cleanup `DEL` only fires at or below zero, which the closed system never
  reaches) -/
  | release (l₁ l₂ : List WorkerSt) (c : String) (g : Int)
      (ch : String → Int) :
      SemStep maxG maxC
        ⟨g, ch, l₁ ++ [⟨.holding, c⟩] ++ l₂⟩
        ⟨g - 1, Function.update ch c (ch c - 1), l₁ ++ [⟨.idle, c⟩] ++ l₂⟩

/-- Initial system: counters at zero, every worker outside `acquireSlots`. -/
def SemInit (s : SemSys) : Prop :=
  s.globalCtr = 0 ∧ (∀ c, s.chanCtr c = 0) ∧
    ∀ w ∈ s.workers, w.pc = WorkerPc.idle

/-- Workers whose `pc` satisfies `p`. -/
def pcCount (ws : List WorkerSt) (p : WorkerSt → Bool) : Nat :=
  (ws.filter p).length

/-- Inside `acquireSlots` or beyond: has incremented the global counter
and not yet given it back. -/
def nonIdlePc : WorkerPc → Bool
  | .idle => false
  | _ => true

/-- Has incremented a channel counter and not yet given it back. -/
def chanHeldPc : WorkerPc → Bool
  | .holding | .backoffChanC => true
  | _ => false

/-- Passed the global admission check without having retried yet. -/
def acquiringPc : WorkerPc → Bool
  | .gotGlobal | .holding | .backoffChanC | .backoffChanG => true
  | _ => false

/-- The PROBING state: holds both admission slots. -/
def holdingPc : WorkerPc → Bool
  | .holding => true
  | _ => false

/-- Workers of channel `c` in the PROBING state. -/
def holdingOn (c : String) (w : WorkerSt) : Bool :=
  w.cid = c && holdingPc w.pc

/-! ## Admission bound, in-memory backend (`worker.ts`,
`processMemoryQueue`)

The event loop is single-threaded, so each launch (`pullNextMemoryJob`
plus bookkeeping) and each completion runs atomically; the queue itself
may change arbitrarily in between (enqueues, stop/drain). -/

/-- Worker-module state: `memoryRunningJobs` (ids with their channel) and
`memoryChannelActiveCounts`. -/
structure MemWorkerSys where
  queue : MemQueue
  running : List (String × String)
  channelActive : String → Nat

/-- `increaseMemoryChannelActive`. -/
def increaseMemoryChannelActive (f : String → Nat) (c : String) :
    String → Nat :=
  Function.update f c (f c + 1)

/-- `decreaseMemoryChannelActive`: delete the entry at count ≤ 1 (a
missing key reads 0), decrement otherwise. -/
def decreaseMemoryChannelActive (f : String → Nat) (c : String) :
    String → Nat :=
  if f c ≤ 1 then Function.update f c 0
  else Function.update f c (f c - 1)

/-- The `canTake` closure `processMemoryQueue` passes to
`pullNextMemoryJob`. -/
def memCanTake (maxG maxC : Nat) (s : MemWorkerSys)
    (job : DetectionJobData) : Bool :=
  s.running.length < maxG && s.channelActive job.channelId < maxC

/-- Atomic events of the in-memory worker loop. -/
inductive MemStep (maxG maxC : Nat) : MemWorkerSys → MemWorkerSys → Prop
  /-- one iteration of the launch loop: `pullNextMemoryJob` accepted a job,
  which is registered as running and counted against its channel -/
  | launch (s : MemWorkerSys) (q' : MemQueue) (id : String)
      (data : DetectionJobData)
      (hpull : pullNextMemoryJob s.queue (memCanTake maxG maxC s) =
        (q', some (id, data))) :
      MemStep maxG maxC s
        ⟨q', (id, data.channelId) :: s.running,
         increaseMemoryChannelActive s.channelActive data.channelId⟩
  /-- a launched job finished: `completeMemoryJob` plus bookkeeping -/
  | complete (q : MemQueue) (l₁ l₂ : List (String × String))
      (id c : String) (f : String → Nat) (success : Bool) :
      MemStep maxG maxC
        ⟨q, l₁ ++ [(id, c)] ++ l₂, f⟩
        ⟨completeMemoryJob q id success, l₁ ++ l₂,
         decreaseMemoryChannelActive f c⟩
  /-- any concurrent queue-only mutation (enqueue, stop, drain):
  it cannot touch the worker's running set or channel counters -/
  | queueEvolve (s : MemWorkerSys) (q' : MemQueue) :
      MemStep maxG maxC s ⟨q', s.running, s.channelActive⟩

/-- Initial worker state: nothing running. -/
def MemWorkerInit (s : MemWorkerSys) : Prop :=
  s.running = [] ∧ ∀ c, s.channelActive c = 0

/-- Running jobs of channel `c`. -/
def runningOn (c : String) (running : List (String × String)) : Nat :=
  (running.filter (fun jc => jc.2 = c)).length

/-! ## Shared concrete fixtures for witnesses and counterexamples -/

/-- A representative probe job payload. -/
def sampleJobData : DetectionJobData :=
  { channelId := "c1"
    modelId := "m1"
    modelName := "gpt-4"
    baseUrl := "https://api.example.test"
    apiKey := "sk-ok"
    proxy := none
    endpointType := EndpointType.CHAT }

/-- A successful probe outcome. -/
def sampleSuccessResult : DetectionResult :=
  { status := CheckStatus.SUCCESS
    latency := 123
    statusCode := some 200
    errorMsg := none
    endpointType := EndpointType.CHAT
    responseContent := some "hi" }

/-- A `Model` row that has been probed healthy. -/
def sampleHealthyModel : ModelRow :=
  { id := "m1"
    channelId := "c1"
    modelName := "gpt-4"
    detectedEndpoints := ["CHAT"]
    healthStatus := HealthStatus.HEALTHY
    lastStatus := some true
    lastLatency := some 123
    lastCheckedAt := some 50
    }

/-- An enabled channel owning `sampleHealthyModel`. -/
def sampleChannel : ChannelRow :=
  { id := "c1"
    name := "main"
    baseUrl := "https://api.example.test"
    apiKey := "sk-ok"
    proxy := none
    enabled := true }

/-- The endpoint row behind `sampleHealthyModel`. -/
def sampleEndpointRow : ModelEndpointRow :=
  { modelId := "m1"
    endpointType := EndpointType.CHAT
    status := CheckStatus.SUCCESS
    latency := 123
    statusCode := some 200
    errorMsg := none
    responseContent := some "hi"
    checkedAt := 50 }

/-! ## Claim C7 -/

/-- Claim C7: releasing admission slots never leaves a semaphore counter
below zero — a counter whose decremented value is at or below zero is
deleted (and an absent key reads as zero) — so no wedged counter survives
a `stopAndDrain`. -/
theorem claim_C7_release_no_negative_counter
    (chanKey globalKey : RedisCounter) :
    0 ≤ ((releaseSlots chanKey globalKey).1.getD 0) ∧
    0 ≤ ((releaseSlots chanKey globalKey).2.getD 0) ∧
    (redisDecrValue chanKey ≤ 0 →
      (releaseSlots chanKey globalKey).1 = none) ∧
    (redisDecrValue globalKey ≤ 0 →
      (releaseSlots chanKey globalKey).2 = none) := by
  unfold releaseSlots
  refine ⟨?_, ?_, ?_, ?_⟩ <;> dsimp only <;> split <;> simp_all <;> omega

/-- Witness for claim C7 at concrete counters: a channel counter at 0 is
decremented and deleted; a global counter at 5 drops to a positive 4. -/
theorem claim_C7_release_no_negative_counter_witness :
    (releaseSlots (some 0) (some 5)).1 = none ∧
    0 ≤ ((releaseSlots (some 0) (some 5)).2.getD 0) :=
  ⟨(claim_C7_release_no_negative_counter (some 0) (some 5)).2.2.1 (by decide),
   (claim_C7_release_no_negative_counter (some 0) (some 5)).2.1⟩

/-! ## Claim C5 -/

/-- Claim C5, as amended: `pauseAndDrainQueue` (Redis branch) sets the
stopped flag with the 5-minute TTL, and — for queue states whose active
set fits in the single `getJobs(["active"], 0, 1000)` page — moves every
active job that carries a worker token to failed with
`"Detection stopped by user"`, empties waiting and delayed, deletes every
admission semaphore key before resuming, and leaves
`active = waiting = delayed = 0` with every admission counter reading 0.
Active jobs without a token are removed rather than failed. -/
theorem claim_C5_pauseAndDrainQueue (s : RedisQueueState)
    (hactive : s.active.length ≤ 1001) :
    (pauseAndDrainQueue s).1.stoppedKey = some ("1", 300) ∧
    (pauseAndDrainQueue s).1.paused = false ∧
    (pauseAndDrainQueue s).1.waiting = [] ∧
    (pauseAndDrainQueue s).1.delayed = [] ∧
    (pauseAndDrainQueue s).1.active = [] ∧
    (pauseAndDrainQueue s).1.semaphoreKeys = [] ∧
    (∀ k, redisKeyRead (pauseAndDrainQueue s).1.semaphoreKeys k = 0) ∧
    (∀ j ∈ s.active, j.token.isSome = true →
      (j, "Detection stopped by user") ∈ (pauseAndDrainQueue s).1.failedJobs) ∧
    (pauseAndDrainQueue s).2 =
      s.waiting.length + s.delayed.length + s.active.length := by
  have htake : s.active.take 1001 = s.active := List.take_of_length_le hactive
  have hdrop : s.active.drop 1001 = [] := List.drop_eq_nil_of_le hactive
  unfold pauseAndDrainQueue
  refine ⟨rfl, rfl, rfl, rfl, ?_, rfl, ?_, ?_, ?_⟩
  · simpa using hdrop
  · intro k; rfl
  · intro j hj htok
    dsimp only
    rw [htake]
    refine List.mem_append_right _ ?_
    exact List.mem_map_of_mem _ (List.mem_filter.mpr ⟨hj, htok⟩)
  · dsimp only; rw [htake]

/-- Witness for claim C5: a queue with one waiting job, one delayed job
and one token-holding active job drains to the empty stable state and the
active job lands in `failedJobs`. -/
theorem claim_C5_pauseAndDrainQueue_witness :
    (pauseAndDrainQueue
      { waiting := [⟨10, sampleJobData, none⟩]
        delayed := [⟨11, sampleJobData, none⟩]
        active := [⟨12, sampleJobData, some "tok"⟩]
        failedJobs := []
        paused := false
        stoppedKey := none
        semaphoreKeys := [("detection:semaphore:global", 3)] }).1.active = [] ∧
    (⟨12, sampleJobData, some "tok"⟩, "Detection stopped by user") ∈
      (pauseAndDrainQueue
        { waiting := [⟨10, sampleJobData, none⟩]
          delayed := [⟨11, sampleJobData, none⟩]
          active := [⟨12, sampleJobData, some "tok"⟩]
          failedJobs := []
          paused := false
          stoppedKey := none
          semaphoreKeys := [("detection:semaphore:global", 3)] }).1.failedJobs :=
  ⟨(claim_C5_pauseAndDrainQueue _ (by decide)).2.2.2.2.1,
   (claim_C5_pauseAndDrainQueue _ (by decide)).2.2.2.2.2.2.2.1
     ⟨12, sampleJobData, some "tok"⟩ (by decide) (by decide)⟩

/-- Counterexample to claim C5 as stated: an active job that carries no
worker token is `remove()`d, not moved to failed — after the drain the
failed set is still empty, so not "every active job" is moved to failed
with the stop error. -/
theorem claim_C5_counterexample :
    (pauseAndDrainQueue
      { waiting := []
        delayed := []
        active := [⟨12, sampleJobData, none⟩]
        failedJobs := []
        paused := false
        stoppedKey := none
        semaphoreKeys := [] }).1.failedJobs = [] ∧
    ¬ ((⟨12, sampleJobData, none⟩, "Detection stopped by user") ∈
      (pauseAndDrainQueue
        { waiting := []
          delayed := []
          active := [⟨12, sampleJobData, none⟩]
          failedJobs := []
          paused := false
          stoppedKey := none
          semaphoreKeys := [] }).1.failedJobs) := by
  constructor <;> decide

/-! ## Claim C9 -/

/-- Claim C9: `triggerSelectiveDetection` with no selected channels
(`null` or the empty list) returns the same result and performs the same
effects as `triggerFullDetection(true)` — the extra stopped-flag clear it
performs first is idempotent. -/
theorem claim_C9_selective_defaults_to_full
    (ept : String → List EndpointType)
    (fm : String → String → Option String → FetchModelsResult)
    (genId : String → String → String)
    (rand : Nat → Nat) (now : Nat)
    (modelIdsByChannel : Option (List (String × List String)))
    (s : SysState) :
    triggerSelectiveDetection ept fm genId rand now none
        modelIdsByChannel s =
      triggerFullDetection ept fm genId rand now true s ∧
    triggerSelectiveDetection ept fm genId rand now (some [])
        modelIdsByChannel s =
      triggerFullDetection ept fm genId rand now true s :=
  ⟨rfl, rfl⟩

/-! ## Claim C10 -/

/-- Claim C10: `triggerChannelDetection` and `triggerModelDetection`
return an error — enqueueing no jobs and resetting no model state (the
returned state differs from the input only by the stopped-flag clear that
precedes the lookup) — when the referenced channel or model does not
exist or the owning channel is disabled. -/
theorem claim_C10_trigger_errors_leave_state
    (ept : String → List EndpointType) (rand : Nat → Nat) (now : Nat)
    (s : SysState) (channelId modelId : String)
    (modelIds : Option (List String)) :
    (s.store.channels.find? (fun c => c.id = channelId) = none →
      triggerChannelDetection ept rand now channelId modelIds s =
        ({ s with queue := clearStoppedFlag s.queue },
         Except.error ("Channel not found: " ++ channelId))) ∧
    (∀ ch, s.store.channels.find? (fun c => c.id = channelId) = some ch →
      ch.enabled = false →
      triggerChannelDetection ept rand now channelId modelIds s =
        ({ s with queue := clearStoppedFlag s.queue },
         Except.error ("Channel is disabled: " ++ channelId))) ∧
    (s.store.models.find? (fun m => m.id = modelId) = none →
      triggerModelDetection ept rand now modelId s =
        ({ s with queue := clearStoppedFlag s.queue },
         Except.error ("Model not found: " ++ modelId))) ∧
    (∀ m ch, s.store.models.find? (fun x => x.id = modelId) = some m →
      s.store.channels.find? (fun c => c.id = m.channelId) = some ch →
      ch.enabled = false →
      triggerModelDetection ept rand now modelId s =
        ({ s with queue := clearStoppedFlag s.queue },
         Except.error ("Channel is disabled: " ++ ch.id))) := by
  refine ⟨?_, ?_, ?_, ?_⟩
  · intro h
    unfold triggerChannelDetection
    rw [h]
  · intro ch hfind hdis
    unfold triggerChannelDetection
    rw [hfind]
    simp [hdis]
  · intro h
    unfold triggerModelDetection
    rw [h]
  · intro m ch hm hc hdis
    unfold triggerModelDetection
    rw [hm]
    dsimp only
    rw [hc]
    simp [hdis]

/-- Witness for claim C10 on a concrete store holding one disabled
channel `c2` with one model `m2`: both lookups fail for unknown ids and
both triggers refuse the disabled channel, leaving the store untouched. -/
theorem claim_C10_trigger_errors_leave_state_witness :
    (triggerChannelDetection (fun _ => [EndpointType.CHAT]) (fun n => n) 7
        "c1" none
        { store :=
            { channels := [{ id := "c2", name := "x"
                             baseUrl := "https://u.test", apiKey := "k"
                             proxy := none, enabled := false }]
              models := [{ id := "m2", channelId := "c2"
                           modelName := "gpt-4", detectedEndpoints := []
                           healthStatus := HealthStatus.UNKNOWN
                           lastStatus := none, lastLatency := none
                           lastCheckedAt := none }]
              modelEndpoints := [], checkLogs := [] }
          queue := MemQueue.empty }).2 =
      Except.error "Channel not found: c1" ∧
    (triggerChannelDetection (fun _ => [EndpointType.CHAT]) (fun n => n) 7
        "c2" none
        { store :=
            { channels := [{ id := "c2", name := "x"
                             baseUrl := "https://u.test", apiKey := "k"
                             proxy := none, enabled := false }]
              models := [{ id := "m2", channelId := "c2"
                           modelName := "gpt-4", detectedEndpoints := []
                           healthStatus := HealthStatus.UNKNOWN
                           lastStatus := none, lastLatency := none
                           lastCheckedAt := none }]
              modelEndpoints := [], checkLogs := [] }
          queue := MemQueue.empty }).2 =
      Except.error "Channel is disabled: c2" ∧
    (triggerModelDetection (fun _ => [EndpointType.CHAT]) (fun n => n) 7
        "m9"
        { store :=
            { channels := [{ id := "c2", name := "x"
                             baseUrl := "https://u.test", apiKey := "k"
                             proxy := none, enabled := false }]
              models := [{ id := "m2", channelId := "c2"
                           modelName := "gpt-4", detectedEndpoints := []
                           healthStatus := HealthStatus.UNKNOWN
                           lastStatus := none, lastLatency := none
                           lastCheckedAt := none }]
              modelEndpoints := [], checkLogs := [] }
          queue := MemQueue.empty }).2 =
      Except.error "Model not found: m9" ∧
    (triggerModelDetection (fun _ => [EndpointType.CHAT]) (fun n => n) 7
        "m2"
        { store :=
            { channels := [{ id := "c2", name := "x"
                             baseUrl := "https://u.test", apiKey := "k"
                             proxy := none, enabled := false }]
              models := [{ id := "m2", channelId := "c2"
                           modelName := "gpt-4", detectedEndpoints := []
                           healthStatus := HealthStatus.UNKNOWN
                           lastStatus := none, lastLatency := none
                           lastCheckedAt := none }]
              modelEndpoints := [], checkLogs := [] }
          queue := MemQueue.empty }).2 =
      Except.error "Channel is disabled: c2" := by
  refine ⟨?_, ?_, ?_, ?_⟩
  · rw [(claim_C10_trigger_errors_leave_state _ _ _ _ "c1" "m9" none).1
      (by decide)]
    rfl
  · rw [(claim_C10_trigger_errors_leave_state _ _ _ _ "c2" "m9" none).2.1
      { id := "c2", name := "x", baseUrl := "https://u.test"
        apiKey := "k", proxy := none, enabled := false }
      (by decide) (by decide)]
    rfl
  · rw [(claim_C10_trigger_errors_leave_state _ _ _ _ "c1" "m9" none).2.2.1
      (by decide)]
    rfl
  · rw [(claim_C10_trigger_errors_leave_state _ _ _ _ "c1" "m2" none).2.2.2
      { id := "m2", channelId := "c2", modelName := "gpt-4"
        detectedEndpoints := [], healthStatus := HealthStatus.UNKNOWN
        lastStatus := none, lastLatency := none, lastCheckedAt := none }
      { id := "c2", name := "x", baseUrl := "https://u.test"
        apiKey := "k", proxy := none, enabled := false }
      (by decide) (by decide) (by decide)]
    rfl

/-! ## Claim C1 -/

/-- The empty-status case of `deriveModelState`. -/
theorem deriveModelState_nil :
    deriveModelState [] = (HealthStatus.UNKNOWN, none) := rfl

/-- All-success case of `deriveModelState`. -/
theorem deriveModelState_of_all_success (sts : List CheckStatus)
    (hne : sts ≠ [])
    (hall : ∀ x ∈ sts, x = CheckStatus.SUCCESS) :
    deriveModelState sts = (HealthStatus.HEALTHY, some true) := by
  obtain ⟨x, hx⟩ := List.exists_mem_of_ne_nil sts hne
  have hs : sts.any (fun status => status = CheckStatus.SUCCESS) = true :=
    List.any_eq_true.mpr ⟨x, hx, by simp [hall x hx]⟩
  have hf : sts.any (fun status => status = CheckStatus.FAIL) = false := by
    simp only [List.any_eq_false]
    intro y hy
    simp [hall y hy]
  unfold deriveModelState
  rw [if_neg (by simpa [List.length_eq_zero] using hne)]
  simp [hs, hf]

/-- All-fail case of `deriveModelState`. -/
theorem deriveModelState_of_all_fail (sts : List CheckStatus)
    (hne : sts ≠ [])
    (hall : ∀ x ∈ sts, x = CheckStatus.FAIL) :
    deriveModelState sts = (HealthStatus.UNHEALTHY, some false) := by
  have hs : sts.any (fun status => status = CheckStatus.SUCCESS) = false := by
    simp only [List.any_eq_false]
    intro y hy
    simp [hall y hy]
  unfold deriveModelState
  rw [if_neg (by simpa [List.length_eq_zero] using hne)]
  simp [hs]

/-- Mixed case of `deriveModelState`. -/
theorem deriveModelState_of_mixed (sts : List CheckStatus)
    (hsucc : ∃ x ∈ sts, x = CheckStatus.SUCCESS)
    (hfail : ∃ x ∈ sts, x = CheckStatus.FAIL) :
    deriveModelState sts = (HealthStatus.PARTIAL, some true) := by
  obtain ⟨x, hx, hxs⟩ := hsucc
  have hne : sts ≠ [] := List.ne_nil_of_mem hx
  have hs : sts.any (fun status => status = CheckStatus.SUCCESS) = true :=
    List.any_eq_true.mpr ⟨x, hx, by simp [hxs]⟩
  obtain ⟨y, hy, hyf⟩ := hfail
  have hf : sts.any (fun status => status = CheckStatus.FAIL) = true :=
    List.any_eq_true.mpr ⟨y, hy, by simp [hyf]⟩
  unfold deriveModelState
  rw [if_neg (by simpa [List.length_eq_zero] using hne)]
  simp [hs, hf]

/-- Claim C1: after `persistDetectionResult` commits, the model row's
`healthStatus` and `lastStatus` equal the derivation rule applied to the
`ModelEndpoint` rows existing at commit time — no rows gives `UNKNOWN`
with `lastStatus` null; all `SUCCESS` gives `HEALTHY` with `true`; all
`FAIL` gives `UNHEALTHY` with `false`; a mix gives `PARTIAL` with
`true`. -/
theorem claim_C1_health_derivation (data : DetectionJobData)
    (result : DetectionResult) (now : Nat) (s s' : Store)
    (h : persistDetectionResult data result now s = some s') :
    ∀ m ∈ s'.models, m.id = data.modelId →
      (endpointStatuses s'.modelEndpoints data.modelId = [] →
        m.healthStatus = HealthStatus.UNKNOWN ∧ m.lastStatus = none) ∧
      ((endpointStatuses s'.modelEndpoints data.modelId ≠ [] ∧
        ∀ st ∈ endpointStatuses s'.modelEndpoints data.modelId,
          st = CheckStatus.SUCCESS) →
        m.healthStatus = HealthStatus.HEALTHY ∧
        m.lastStatus = some true) ∧
      ((endpointStatuses s'.modelEndpoints data.modelId ≠ [] ∧
        ∀ st ∈ endpointStatuses s'.modelEndpoints data.modelId,
          st = CheckStatus.FAIL) →
        m.healthStatus = HealthStatus.UNHEALTHY ∧
        m.lastStatus = some false) ∧
      (((∃ st ∈ endpointStatuses s'.modelEndpoints data.modelId,
          st = CheckStatus.SUCCESS) ∧
        (∃ st ∈ endpointStatuses s'.modelEndpoints data.modelId,
          st = CheckStatus.FAIL)) →
        m.healthStatus = HealthStatus.PARTIAL ∧
        m.lastStatus = some true) := by
  simp only [persistDetectionResult] at h
  split at h
  case isFalse => exact absurd h (by simp)
  case isTrue hany =>
    rw [Option.some_inj] at h
    subst h
    intro m hm hid
    dsimp only at hm hid ⊢
    obtain ⟨m₀, hm₀, rfl⟩ := List.mem_map.mp hm
    by_cases h₀ : m₀.id = data.modelId
    · rw [if_pos h₀] at hid ⊢
      refine ⟨?_, ?_, ?_, ?_⟩
      · intro hnil
        rw [show (endpointStatuses
              (upsertModelEndpoint s.modelEndpoints data result now)
              data.modelId) = [] from hnil, deriveModelState_nil]
        exact ⟨rfl, rfl⟩
      · intro ⟨hne, hall⟩
        rw [deriveModelState_of_all_success _ hne hall]
        exact ⟨rfl, rfl⟩
      · intro ⟨hne, hall⟩
        rw [deriveModelState_of_all_fail _ hne hall]
        exact ⟨rfl, rfl⟩
      · intro ⟨hsucc, hfail⟩
        rw [deriveModelState_of_mixed _ hsucc hfail]
        exact ⟨rfl, rfl⟩
    · rw [if_neg h₀] at hid
      exact absurd hid h₀

/-- Fixture: a second probe of model `m1`, against the CLAUDE endpoint. -/
def claimC1Data : DetectionJobData :=
  { sampleJobData with endpointType := EndpointType.CLAUDE }

/-- Fixture: that probe failing with a 401. -/
def claimC1Result : DetectionResult :=
  { status := CheckStatus.FAIL
    latency := 77
    statusCode := some 401
    errorMsg := some "unauthorized"
    endpointType := EndpointType.CLAUDE
    responseContent := none }

/-- Fixture: store before the failing CLAUDE probe is persisted. -/
def claimC1Store : Store :=
  { channels := [sampleChannel]
    models := [sampleHealthyModel]
    modelEndpoints := [sampleEndpointRow]
    checkLogs := [] }

/-- Fixture: the model row after the mixed outcome. -/
def claimC1UpdatedModel : ModelRow :=
  { sampleHealthyModel with
    healthStatus := HealthStatus.PARTIAL
    lastStatus := some true
    lastLatency := some 77
    lastCheckedAt := some 60 }

/-- Fixture: store after the failing CLAUDE probe is persisted. -/
def claimC1Store' : Store :=
  { channels := [sampleChannel]
    models := [claimC1UpdatedModel]
    modelEndpoints :=
      [sampleEndpointRow,
       { modelId := "m1"
         endpointType := EndpointType.CLAUDE
         status := CheckStatus.FAIL
         latency := 77
         statusCode := some 401
         errorMsg := some "unauthorized"
         responseContent := none
         checkedAt := 60 }]
    checkLogs :=
      [{ modelId := "m1"
         endpointType := EndpointType.CLAUDE
         status := CheckStatus.FAIL
         latency := 77
         statusCode := some 401
         errorMsg := some "unauthorized"
         responseContent := none
         createdAt := 60 }] }

/-- Witness for claim C1: a healthy CHAT endpoint plus a failing CLAUDE
probe commit to a `PARTIAL` model with `lastStatus = true`. -/
theorem claim_C1_health_derivation_witness :
    persistDetectionResult claimC1Data claimC1Result 60 claimC1Store =
      some claimC1Store' ∧
    claimC1UpdatedModel.healthStatus = HealthStatus.PARTIAL ∧
    claimC1UpdatedModel.lastStatus = some true := by
  refine ⟨by decide, ?_⟩
  exact (claim_C1_health_derivation claimC1Data claimC1Result 60
    claimC1Store claimC1Store' (by decide) claimC1UpdatedModel
    (by decide) (by decide)).2.2.2 ⟨by decide, by decide⟩

/-! ## Claim C2 -/

/-- Filtering commutes with mapping a function that does not change the
predicate's verdict. -/
theorem filter_map_comm {α : Type} (f : α → α) (p : α → Bool)
    (hp : ∀ x, p (f x) = p x) :
    ∀ l : List α, (l.map f).filter p = (l.filter p).map f := by
  intro l
  induction l with
  | nil => rfl
  | cons x xs ih =>
    by_cases hx : p x
    · simp [List.filter_cons, hp, hx, ih]
    · simp [List.filter_cons, hp, hx, ih]

/-- Mapping a function that fixes every member is the identity. -/
theorem map_eq_self_of_mem {α : Type} (f : α → α) (l : List α)
    (h : ∀ x ∈ l, f x = x) : l.map f = l := by
  induction l with
  | nil => rfl
  | cons x xs ih =>
    simp only [List.map_cons, h x (by simp)]
    rw [ih (fun y hy => h y (by simp [hy]))]

/-- Under the `(modelId, endpointType)` uniqueness constraint, at most one
endpoint row matches a key. -/
theorem epFilter_length_le_one (rows : List ModelEndpointRow)
    (mid : String) (et : EndpointType)
    (hnd : (rows.map (fun r => (r.modelId, r.endpointType))).Nodup) :
    (rows.filter (epKeyMatches mid et)).length ≤ 1 := by
  induction rows with
  | nil => simp
  | cons r rest ih =>
    simp only [List.map_cons, List.nodup_cons] at hnd
    obtain ⟨hnotin, hnd'⟩ := hnd
    by_cases hr : epKeyMatches mid et r = true
    · rw [List.filter_cons_of_pos hr]
      have hnil : rest.filter (epKeyMatches mid et) = [] := by
        rw [List.filter_eq_nil_iff]
        intro a ha hpa
        simp only [epKeyMatches, Bool.and_eq_true, decide_eq_true_eq] at hpa hr
        exact hnotin (by
          rw [show (r.modelId, r.endpointType) =
            (a.modelId, a.endpointType) by
              rw [hpa.1, hpa.2, hr.1, hr.2]]
          exact List.mem_map_of_mem _ ha)
      rw [hnil]
      simp
    · rw [List.filter_cons_of_neg hr]
      exact ih hnd'

/-- The endpoint row `persistDetectionResult` leaves for the probed key. -/
def expectedEndpointRow (data : DetectionJobData)
    (result : DetectionResult) (now : Nat) : ModelEndpointRow :=
  { modelId := data.modelId
    endpointType := data.endpointType
    status := result.status
    latency := result.latency
    statusCode := result.statusCode
    errorMsg := result.errorMsg
    responseContent := result.responseContent
    checkedAt := now }

/-- The check-log row `persistDetectionResult` appends. -/
def expectedCheckLogRow (data : DetectionJobData)
    (result : DetectionResult) (now : Nat) : CheckLogRow :=
  { modelId := data.modelId
    endpointType := result.endpointType
    status := result.status
    latency := result.latency
    statusCode := result.statusCode
    errorMsg := result.errorMsg
    responseContent := result.responseContent
    createdAt := now }

/-- The upserted table holds exactly one row for the probed key — the
outcome's row — and leaves every other key's rows unchanged. -/
theorem upsertModelEndpoint_spec (rows : List ModelEndpointRow)
    (data : DetectionJobData) (result : DetectionResult) (now : Nat)
    (hnd : (rows.map (fun r => (r.modelId, r.endpointType))).Nodup) :
    (upsertModelEndpoint rows data result now).filter
        (epKeyMatches data.modelId data.endpointType) =
      [expectedEndpointRow data result now] ∧
    (upsertModelEndpoint rows data result now).filter
        (fun r => !epKeyMatches data.modelId data.endpointType r) =
      rows.filter (fun r => !epKeyMatches data.modelId data.endpointType r) := by
  set p := epKeyMatches data.modelId data.endpointType with hp
  set f : ModelEndpointRow → ModelEndpointRow := fun r =>
    if p r then
      { r with
        status := result.status
        latency := result.latency
        statusCode := result.statusCode
        errorMsg := result.errorMsg
        responseContent := result.responseContent
        checkedAt := now }
    else r with hf
  have hpres : ∀ r, p (f r) = p r := by
    intro r
    by_cases hr : p r = true
    · simp only [hf, if_pos hr]
      rfl
    · simp only [hf, if_neg hr]
  unfold upsertModelEndpoint
  split
  case isTrue hany =>
    rw [show (rows.map (fun r =>
      if epKeyMatches data.modelId data.endpointType r then
        { r with
          status := result.status
          latency := result.latency
          statusCode := result.statusCode
          errorMsg := result.errorMsg
          responseContent := result.responseContent
          checkedAt := now }
      else r)) = rows.map f from rfl]
    constructor
    · rw [filter_map_comm f p hpres]
      have hge : 1 ≤ (rows.filter p).length := by
        obtain ⟨r, hr, hpr⟩ := List.any_eq_true.mp hany
        have : r ∈ rows.filter p := List.mem_filter.mpr ⟨hr, hpr⟩
        exact List.length_pos.mpr (List.ne_nil_of_mem this)
      have hle := epFilter_length_le_one rows data.modelId
        data.endpointType hnd
      have hone : (rows.filter p).length = 1 := le_antisymm hle hge
      obtain ⟨a, ha⟩ := List.length_eq_one.mp hone
      rw [ha]
      have hpa : p a = true := by
        have : a ∈ rows.filter p := by rw [ha]; simp
        exact (List.mem_filter.mp this).2
      have : f a = expectedEndpointRow data result now := by
        simp only [hf, if_pos hpa]
        simp only [hp, epKeyMatches, Bool.and_eq_true,
          decide_eq_true_eq] at hpa
        simp [expectedEndpointRow, hpa.1, hpa.2]
      simp [this]
    · rw [filter_map_comm f (fun r => !p r) (by intro r; simp [hpres])]
      exact map_eq_self_of_mem f _ (by
        intro r hr
        have := (List.mem_filter.mp hr).2
        simp only [Bool.not_eq_true'] at this
        simp [hf, this])
  case isFalse hany =>
    have hnone : ∀ r ∈ rows, p r = false := by
      intro r hr
      by_contra hcon
      exact hany (List.any_eq_true.mpr ⟨r, hr,
        by simpa using hcon⟩)
    constructor
    · rw [List.filter_append]
      rw [List.filter_eq_nil_iff.mpr (by intro a ha; simp [hnone a ha])]
      have : p (expectedEndpointRow data result now) = true := by
        simp [hp, epKeyMatches, expectedEndpointRow]
      simp [expectedEndpointRow] at this ⊢
      simp [this]
    · rw [List.filter_append]
      have : (fun r => !p r) (expectedEndpointRow data result now) = false := by
        simp [hp, epKeyMatches, expectedEndpointRow]
      simp only [expectedEndpointRow] at this
      simp [this]

/-- Claim C2: `persistDetectionResult` performs, in one transaction,
exactly these effects: the upsert of the single endpoint row for
`(modelId, endpointType)` with the outcome's fields, the append of one
`CheckLog` row, and the model-row update with the derived health pair,
`lastLatency = outcome.latency` and `lastCheckedAt = now`; rows of other
keys and other models, and the channel table, are untouched.  When the
transaction aborts, the store is unchanged. -/
theorem claim_C2_persist_transaction_effects (data : DetectionJobData)
    (result : DetectionResult) (now : Nat) (s : Store)
    (hnd : (s.modelEndpoints.map
      (fun r => (r.modelId, r.endpointType))).Nodup) :
    (∀ s', persistDetectionResult data result now s = some s' →
      s'.checkLogs = s.checkLogs ++ [expectedCheckLogRow data result now] ∧
      s'.modelEndpoints.filter
          (epKeyMatches data.modelId data.endpointType) =
        [expectedEndpointRow data result now] ∧
      s'.modelEndpoints.filter
          (fun r => !epKeyMatches data.modelId data.endpointType r) =
        s.modelEndpoints.filter
          (fun r => !epKeyMatches data.modelId data.endpointType r) ∧
      s'.models.filter (fun m => !(m.id = data.modelId : Bool)) =
        s.models.filter (fun m => !(m.id = data.modelId : Bool)) ∧
      s'.models.length = s.models.length ∧
      (∀ m ∈ s'.models, m.id = data.modelId →
        m.lastLatency = some result.latency ∧
        m.lastCheckedAt = some now ∧
        (m.healthStatus, m.lastStatus) =
          deriveModelState
            (endpointStatuses s'.modelEndpoints data.modelId)) ∧
      s'.channels = s.channels) ∧
    (persistDetectionResult data result now s = none →
      runPersistDetectionResult data result now s = (s, false)) := by
  constructor
  · intro s' h
    simp only [persistDetectionResult] at h
    split at h
    case isFalse => exact absurd h (by simp)
    case isTrue hany =>
      rw [Option.some_inj] at h
      subst h
      dsimp only
      obtain ⟨hone, hothers⟩ :=
        upsertModelEndpoint_spec s.modelEndpoints data result now hnd
      refine ⟨rfl, hone, hothers, ?_, by simp, ?_, rfl⟩
      · rw [filter_map_comm _ _ (by
          intro m
          by_cases hm : m.id = data.modelId <;> simp [hm])]
        exact map_eq_self_of_mem _ _ (by
          intro m hm
          have := (List.mem_filter.mp hm).2
          simp only [Bool.not_eq_true', decide_eq_false_iff_not] at this
          simp [this])
      · intro m hm hid
        obtain ⟨m₀, hm₀, rfl⟩ := List.mem_map.mp hm
        by_cases h₀ : m₀.id = data.modelId
        · rw [if_pos h₀]
          exact ⟨rfl, rfl, rfl⟩
        · rw [if_neg h₀] at hid
          exact absurd hid h₀
  · intro h
    unfold runPersistDetectionResult
    rw [h]

/-- Witness for claim C2 at the concrete mixed-probe fixture: the effects
clause applies to the committed store, and every field-level conclusion
holds there. -/
theorem claim_C2_persist_transaction_effects_witness :
    claimC1Store'.checkLogs =
      claimC1Store.checkLogs ++
        [expectedCheckLogRow claimC1Data claimC1Result 60] ∧
    claimC1Store'.modelEndpoints.filter
        (epKeyMatches "m1" EndpointType.CLAUDE) =
      [expectedEndpointRow claimC1Data claimC1Result 60] := by
  have := (claim_C2_persist_transaction_effects claimC1Data claimC1Result
    60 claimC1Store (by decide)).1 claimC1Store' (by decide)
  exact ⟨this.1, this.2.1⟩

/-! ## Claim C3 -/

/-- Claim C3, as amended: whenever the worker observes the stop flag — at
dequeue or again immediately after acquiring admission slots — the job
completes as a failure with `errorMsg = "Detection stopped by user"`, but
the canceled outcome is returned directly: it is neither persisted through
the repository nor published as a progress event (the store and the
published-event list are unchanged). -/
theorem claim_C3_stop_short_circuits (data : DetectionJobData)
    (stopAtDequeue stopAfterAcquire : Bool)
    (probe : Except String DetectionResult) (hasPending : Bool)
    (persistErrMsg : String) (now : Nat)
    (s : Store) (published : List DetectionProgressEvent)
    (hstop : stopAtDequeue = true ∨ stopAfterAcquire = true) :
    runDetectionPipeline data stopAtDequeue stopAfterAcquire probe
        hasPending persistErrMsg now s published =
      (s, published, buildStoppedResult data) ∧
    (buildStoppedResult data).status = CheckStatus.FAIL ∧
    (buildStoppedResult data).errorMsg = some "Detection stopped by user" := by
  refine ⟨?_, rfl, rfl⟩
  unfold runDetectionPipeline
  rcases hstop with h | h
  · rw [h]
    rfl
  · rw [h]
    cases stopAtDequeue <;> rfl

/-- Witness for claim C3 (amended) with the flag raised only at the
second checkpoint: the pipeline returns the canceled failure and leaves
the store and event list as they were. -/
theorem claim_C3_stop_short_circuits_witness :
    runDetectionPipeline sampleJobData false true
        (Except.ok sampleSuccessResult) false "db down" 99
        claimC1Store [] =
      (claimC1Store, [], buildStoppedResult sampleJobData) :=
  (claim_C3_stop_short_circuits sampleJobData false true
    (Except.ok sampleSuccessResult) false "db down" 99
    claimC1Store [] (Or.inr rfl)).1

/-- Counterexample to claim C3 as stated: at a concrete canceled job the
outcome is not persisted (no `CheckLog` is appended, the store is
unchanged) and no progress event is published, contradicting "this
canceled outcome is still persisted through the repository and still
published as a progress event". -/
theorem claim_C3_counterexample :
    (runDetectionPipeline sampleJobData true false
        (Except.ok sampleSuccessResult) false "db down" 99
        claimC1Store []).2.2 = buildStoppedResult sampleJobData ∧
    (runDetectionPipeline sampleJobData true false
        (Except.ok sampleSuccessResult) false "db down" 99
        claimC1Store []).1.checkLogs = claimC1Store.checkLogs ∧
    (runDetectionPipeline sampleJobData true false
        (Except.ok sampleSuccessResult) false "db down" 99
        claimC1Store []).1 = claimC1Store ∧
    ¬ ((runDetectionPipeline sampleJobData true false
        (Except.ok sampleSuccessResult) false "db down" 99
        claimC1Store []).2.1 ≠ []) := by
  refine ⟨rfl, rfl, rfl, ?_⟩
  intro hne
  exact hne rfl

/-! ## Claim C4 -/

/-- Fixture: the system state before a full detection trigger — one
enabled channel `c1` whose model `m1` is `HEALTHY` with one committed
`ModelEndpoint` row, and an idle queue. -/
def claimC4SysState : SysState :=
  { store := claimC1Store, queue := MemQueue.empty }

/-- Fixture: the run of `triggerFullDetection(syncFirst := false)` on
`claimC4SysState` with a single-endpoint `getEndpointsToTest`. -/
def claimC4Run : SysState × FullDetectionResult :=
  triggerFullDetection (fun _ => [EndpointType.CHAT])
    (fun _ _ _ => { models := [], error := none })
    (fun a b => a ++ "/" ++ b) (fun n => n) 1000 false claimC4SysState

/-- Claim C4 is a code bug: evaluating `triggerFullDetection` at the
fixture shows that when the batch's job is already visible in the queue,
the committed "reset" has set `lastStatus`/`lastLatency`/`lastCheckedAt`
to null and cleared the legacy `detectedEndpoints` array, but has left
`healthStatus = HEALTHY` (not `UNKNOWN`) and the `ModelEndpoint` rows in
place — the repository's `resetModelsDetectionState`, which performs the
claimed reset, is never called by any `trigger*` entry point. -/
theorem claim_C4_reset_skips_health_status :
    claimC4Run.1.queue.waitingIds = ["c1-m1-CHAT-1000-0"] ∧
    claimC4Run.2.jobIds = ["c1-m1-CHAT-1000-0"] ∧
    claimC4Run.2.modelCount = 1 ∧
    claimC4Run.1.store.models =
      [{ sampleHealthyModel with
         detectedEndpoints := []
         lastStatus := none
         lastLatency := none
         lastCheckedAt := none }] ∧
    claimC4Run.1.store.models.map (fun m => m.healthStatus) =
      [HealthStatus.HEALTHY] ∧
    claimC4Run.1.store.modelEndpoints = [sampleEndpointRow] ∧
    ¬ (claimC4Run.1.store.models.map (fun m => m.healthStatus) =
        [HealthStatus.UNKNOWN]) ∧
    ¬ (claimC4Run.1.store.modelEndpoints = []) := by
  refine ⟨rfl, rfl, rfl, rfl, rfl, rfl, by decide, by decide⟩

/-! ## Claim C8 -/

/-- `mapGet` over a table extended with a fresh entry. -/
theorem mapGet_append_single (l : List (String × MemoryJob))
    (e : String × MemoryJob) (k : String) :
    mapGet (l ++ [e]) k =
      (((l.find? (fun kv => kv.1 = k)).or
        (if e.1 = k then some e else none)).map (fun kv => kv.2)) := by
  unfold mapGet
  rw [List.find?_append]
  congr 1
  by_cases he : e.1 = k
  · simp [List.find?, he]
  · simp [List.find?, he]

/-- `createMemoryJob` with a fresh id appends its entry to the job map. -/
theorem createMemoryJob_jobs (q : MemQueue) (data : DetectionJobData)
    (now rand : Nat)
    (hfresh : ∀ kv ∈ q.jobs, kv.1 ≠ mkMemoryJobId data now rand) :
    (createMemoryJob q data now rand).1.jobs =
      q.jobs ++ [(mkMemoryJobId data now rand,
        { id := mkMemoryJobId data now rand, data := data
          state := MemoryJobState.waiting })] := by
  have hany : (q.jobs.any
      (fun kv => kv.1 = mkMemoryJobId data now rand)) = false := by
    simp only [List.any_eq_false]
    intro kv hkv
    simp [hfresh kv hkv]
  simp only [createMemoryJob, mapSet, hany]
  simp

/-- One `createMemoryJob` with a fresh id adds exactly that job's
`modelId` to the testing set. -/
theorem createMemoryJob_testing (q : MemQueue) (data : DetectionJobData)
    (now rand : Nat)
    (hfresh : ∀ kv ∈ q.jobs, kv.1 ≠ mkMemoryJobId data now rand) :
    (getTestingModelIds (createMemoryJob q data now rand).1).toFinset =
      insert data.modelId (getTestingModelIds q).toFinset := by
  have hjobs := createMemoryJob_jobs q data now rand hfresh
  have hnone : q.jobs.find?
      (fun kv => kv.1 = mkMemoryJobId data now rand) = none := by
    rw [List.find?_eq_none]
    intro kv hkv
    simp [hfresh kv hkv]
  have hget : ∀ k, mapGet (createMemoryJob q data now rand).1.jobs k =
      (mapGet q.jobs k).or
        (if mkMemoryJobId data now rand = k then
          some { id := mkMemoryJobId data now rand, data := data
                 state := MemoryJobState.waiting }
         else none) := by
    intro k
    rw [hjobs, mapGet_append_single]
    unfold mapGet
    cases hfind : q.jobs.find? (fun kv => kv.1 = k) with
    | some kv => simp
    | none =>
      by_cases hk : mkMemoryJobId data now rand = k
      · simp [hk]
      · simp [hk]
  have hwa : (createMemoryJob q data now rand).1.waitingIds =
      q.waitingIds ++ [mkMemoryJobId data now rand] := rfl
  have hac : (createMemoryJob q data now rand).1.activeIds =
      q.activeIds := rfl
  ext x
  simp only [getTestingModelIds, List.mem_toFinset, List.mem_dedup,
    List.mem_filterMap, Finset.mem_insert, hwa, hac]
  constructor
  · rintro ⟨w, hw, hgw⟩
    rw [hget w] at hgw
    cases hfind : mapGet q.jobs w with
    | some j =>
      rw [hfind] at hgw
      simp only [Option.or_some, Option.map_some] at hgw
      right
      refine ⟨w, ?_, by rw [hfind]; simpa using hgw⟩
      rcases List.mem_append.mp hw with hw | hw
      · rcases List.mem_append.mp hw with hw | hw
        · exact List.mem_append.mpr (Or.inl hw)
        · -- w is the fresh id, yet the old map finds it: contradiction
          exfalso
          simp only [List.mem_singleton] at hw
          subst hw
          unfold mapGet at hfind
          rw [hnone] at hfind
          simp at hfind
      · exact List.mem_append.mpr (Or.inr hw)
    | none =>
      rw [hfind] at hgw
      simp only [Option.none_or] at hgw
      by_cases hk : mkMemoryJobId data now rand = w
      · rw [if_pos hk] at hgw
        simp only [Option.map] at hgw
        left
        exact (Option.some.inj hgw).symm
      · rw [if_neg hk] at hgw
        simp at hgw
  · rintro (rfl | ⟨w, hw, hgw⟩)
    · refine ⟨mkMemoryJobId data now rand, ?_, ?_⟩
      · exact List.mem_append.mpr (Or.inl (List.mem_append.mpr
          (Or.inr (by simp))))
      · rw [hget (mkMemoryJobId data now rand)]
        unfold mapGet
        rw [hnone]
        simp
    · refine ⟨w, ?_, ?_⟩
      · rcases List.mem_append.mp hw with hw | hw
        · exact List.mem_append.mpr (Or.inl (List.mem_append.mpr (Or.inl hw)))
        · exact List.mem_append.mpr (Or.inr hw)
      · rw [hget w]
        cases hfind : mapGet q.jobs w with
        | some j => rw [hfind] at hgw; simpa using hgw
        | none => rw [hfind] at hgw; simp at hgw

/-- Counter resets do not touch the job sets. -/
theorem resetMemoryCountersIfIdle_jobs (q : MemQueue) :
    (resetMemoryCountersIfIdle q).jobs = q.jobs := by
  unfold resetMemoryCountersIfIdle
  split <;> rfl

/-- Counter resets do not change the testing set. -/
theorem getTestingModelIds_resetCounters (q : MemQueue) :
    getTestingModelIds (resetMemoryCountersIfIdle q) =
      getTestingModelIds q := by
  unfold resetMemoryCountersIfIdle
  split <;> rfl

/-- The enqueue loop of `addDetectionJobsBulk` adds exactly the batch's
`modelId`s to the testing set, provided the generated ids are fresh and
pairwise distinct. -/
theorem addBulk_go_testing (now : Nat) :
    ∀ (pairs : List (DetectionJobData × Nat)) (q : MemQueue),
      (∀ pr ∈ pairs, ∀ kv ∈ q.jobs, kv.1 ≠ mkMemoryJobId pr.1 now pr.2) →
      ((pairs.map (fun pr => mkMemoryJobId pr.1 now pr.2)).Nodup) →
      (getTestingModelIds
        (addDetectionJobsBulk.go now q pairs).1).toFinset =
        (pairs.map (fun pr => pr.1.modelId)).toFinset ∪
          (getTestingModelIds q).toFinset := by
  intro pairs
  induction pairs with
  | nil =>
    intro q _ _
    simp [addDetectionJobsBulk.go]
  | cons pr rest ih =>
    intro q hfresh hnodup
    obtain ⟨d, r⟩ := pr
    have hheadfresh : ∀ kv ∈ q.jobs, kv.1 ≠ mkMemoryJobId d now r :=
      fun kv hkv => hfresh (d, r) (by simp) kv hkv
    have hstep : (addDetectionJobsBulk.go now q ((d, r) :: rest)).1 =
        (addDetectionJobsBulk.go now
          (createMemoryJob q d now r).1 rest).1 := rfl
    rw [hstep]
    simp only [List.map_cons, List.nodup_cons] at hnodup
    obtain ⟨hnotin, hnodup'⟩ := hnodup
    have hfresh' : ∀ pr ∈ rest,
        ∀ kv ∈ (createMemoryJob q d now r).1.jobs,
          kv.1 ≠ mkMemoryJobId pr.1 now pr.2 := by
      intro pr hpr kv hkv
      rw [createMemoryJob_jobs q d now r hheadfresh] at hkv
      rcases List.mem_append.mp hkv with hkv | hkv
      · exact hfresh pr (by simp [hpr]) kv hkv
      · simp only [List.mem_singleton] at hkv
        subst hkv
        intro hcon
        have h2 : mkMemoryJobId d now r =
            mkMemoryJobId pr.1 now pr.2 := hcon
        have hmem : mkMemoryJobId pr.1 now pr.2 ∈
            rest.map (fun pr => mkMemoryJobId pr.1 now pr.2) :=
          List.mem_map_of_mem _ hpr
        rw [← h2] at hmem
        exact hnotin hmem
    rw [ih _ hfresh' hnodup',
      createMemoryJob_testing q d now r hheadfresh]
    ext x
    simp only [Finset.mem_union, Finset.mem_insert, List.map_cons,
      List.mem_toFinset, List.mem_cons]
    tauto

/-- Claim C8: after `addDetectionJobsBulk` returns (and before workers
dequeue or complete the batch), `getTestingModelIds` is exactly the union
of the batch's `modelId`s and the `modelId`s of jobs already pending —
provided the generated job ids collide neither with existing ids nor with
each other (which the timestamp-plus-random suffix is there to ensure). -/
theorem claim_C8_enqueue_testing_union (q : MemQueue)
    (jobs : List DetectionJobData) (now : Nat) (rands : List Nat)
    (hlen : jobs.length ≤ rands.length)
    (hfresh : ∀ pr ∈ jobs.zip rands, ∀ kv ∈ q.jobs,
      kv.1 ≠ mkMemoryJobId pr.1 now pr.2)
    (hnodup : ((jobs.zip rands).map
      (fun pr => mkMemoryJobId pr.1 now pr.2)).Nodup) :
    (getTestingModelIds
      (addDetectionJobsBulk q jobs now rands).1).toFinset =
      (jobs.map (fun j => j.modelId)).toFinset ∪
        (getTestingModelIds q).toFinset := by
  have h1 : (addDetectionJobsBulk q jobs now rands).1 =
      (addDetectionJobsBulk.go now (resetMemoryCountersIfIdle q)
        (jobs.zip rands)).1 := rfl
  have hfreshr : ∀ pr ∈ jobs.zip rands,
      ∀ kv ∈ (resetMemoryCountersIfIdle q).jobs,
        kv.1 ≠ mkMemoryJobId pr.1 now pr.2 := by
    intro pr hpr kv hkv
    rw [resetMemoryCountersIfIdle_jobs] at hkv
    exact hfresh pr hpr kv hkv
  rw [h1, addBulk_go_testing now (jobs.zip rands) _ hfreshr hnodup,
    getTestingModelIds_resetCounters]
  congr 2
  rw [show (jobs.zip rands).map (fun pr => pr.1.modelId) =
    ((jobs.zip rands).map Prod.fst).map (fun j => j.modelId) by
      rw [List.map_map]; rfl]
  rw [List.map_fst_zip _ _ hlen]

/-- Witness for claim C8: enqueueing a two-model batch onto the empty
queue makes `getTestingModelIds` exactly those two models. -/
theorem claim_C8_enqueue_testing_union_witness :
    (getTestingModelIds
      (addDetectionJobsBulk MemQueue.empty
        [sampleJobData, { sampleJobData with modelId := "m2" }]
        5 [0, 1]).1).toFinset =
      (["m1", "m2"] : List String).toFinset ∪
        (getTestingModelIds MemQueue.empty).toFinset :=
  claim_C8_enqueue_testing_union MemQueue.empty
    [sampleJobData, { sampleJobData with modelId := "m2" }] 5 [0, 1]
    (by decide) (by decide) (by decide)

/-! ## Claim C6: invariants of the two admission systems -/

theorem pcCount_append (l₁ l₂ : List WorkerSt) (p : WorkerSt → Bool) :
    pcCount (l₁ ++ l₂) p = pcCount l₁ p + pcCount l₂ p := by
  simp [pcCount, List.filter_append]

theorem pcCount_singleton (w : WorkerSt) (p : WorkerSt → Bool) :
    pcCount [w] p = if p w then 1 else 0 := by
  by_cases h : p w <;> simp [pcCount, List.filter, h]

/-- Count over a one-element replacement. -/
theorem pcCount_sandwich (l₁ l₂ : List WorkerSt) (w w' : WorkerSt)
    (p : WorkerSt → Bool) :
    pcCount (l₁ ++ [w'] ++ l₂) p + (if p w then 1 else 0) =
      pcCount (l₁ ++ [w] ++ l₂) p + (if p w' then 1 else 0) := by
  simp only [pcCount_append, pcCount_singleton]
  omega

/-- Replacement that enters the counted set. -/
theorem pcCount_sandwich_ft (l₁ l₂ : List WorkerSt) (w w' : WorkerSt)
    (p : WorkerSt → Bool) (hw : p w = false) (hw' : p w' = true) :
    pcCount (l₁ ++ [w'] ++ l₂) p = pcCount (l₁ ++ [w] ++ l₂) p + 1 := by
  have h := pcCount_sandwich l₁ l₂ w w' p
  rw [hw, hw'] at h
  simpa using h

/-- Replacement that leaves the counted set. -/
theorem pcCount_sandwich_tf (l₁ l₂ : List WorkerSt) (w w' : WorkerSt)
    (p : WorkerSt → Bool) (hw : p w = true) (hw' : p w' = false) :
    pcCount (l₁ ++ [w'] ++ l₂) p + 1 = pcCount (l₁ ++ [w] ++ l₂) p := by
  have h := pcCount_sandwich l₁ l₂ w w' p
  rw [hw, hw'] at h
  simpa using h

/-- Replacement that does not change membership in the counted set. -/
theorem pcCount_sandwich_same (l₁ l₂ : List WorkerSt) (w w' : WorkerSt)
    (p : WorkerSt → Bool) (hw : p w = p w') :
    pcCount (l₁ ++ [w'] ++ l₂) p = pcCount (l₁ ++ [w] ++ l₂) p := by
  have h := pcCount_sandwich l₁ l₂ w w' p
  rw [hw] at h
  omega

theorem pcCount_mono (l : List WorkerSt) (p q : WorkerSt → Bool)
    (h : ∀ w, p w = true → q w = true) : pcCount l p ≤ pcCount l q := by
  induction l with
  | nil => exact Nat.le_refl 0
  | cons x xs ih =>
    unfold pcCount at ih ⊢
    by_cases hx : p x = true
    · rw [List.filter_cons_of_pos hx, List.filter_cons_of_pos (h x hx)]
      simpa using ih
    · rw [List.filter_cons_of_neg (by simpa using hx)]
      cases hq : q x
      · rw [List.filter_cons_of_neg (by simp [hq])]
        exact ih
      · rw [List.filter_cons_of_pos hq]
        simp only [List.length_cons]
        omega

/-- The coupling invariant of the Redis two-level semaphore: the global
counter counts the workers that have incremented it and not yet
decremented it; each channel counter likewise; the workers past the
global admission check are at most `maxG`; the holders of a channel are
at most `maxC`. -/
def semInv (maxG maxC : Nat) (s : SemSys) : Prop :=
  s.globalCtr = (pcCount s.workers (fun w => nonIdlePc w.pc) : Int) ∧
  (∀ c, s.chanCtr c =
    (pcCount s.workers (fun w => w.cid = c && chanHeldPc w.pc) : Int)) ∧
  pcCount s.workers (fun w => acquiringPc w.pc) ≤ maxG ∧
  (∀ c, pcCount s.workers (holdingOn c) ≤ maxC)

theorem semInv_init (maxG maxC : Nat) (s : SemSys) (h : SemInit s) :
    semInv maxG maxC s := by
  obtain ⟨hg, hch, hidle⟩ := h
  have hcount : ∀ p : WorkerSt → Bool,
      (∀ w, w.pc = WorkerPc.idle → p w = false) →
      pcCount s.workers p = 0 := by
    intro p hp
    unfold pcCount
    rw [List.length_eq_zero, List.filter_eq_nil_iff]
    intro w hw
    simp [hp w (hidle w hw)]
  refine ⟨?_, ?_, ?_, ?_⟩
  · rw [hg, hcount _ (by intro w hw; simp [hw, nonIdlePc])]
    rfl
  · intro c
    rw [hch c, hcount _ (by intro w hw; simp [hw, chanHeldPc])]
    rfl
  · rw [hcount _ (by intro w hw; simp [hw, acquiringPc])]
    exact Nat.zero_le _
  · intro c
    rw [hcount _ (by intro w hw; simp [holdingOn, hw, holdingPc])]
    exact Nat.zero_le _

/-- Every worker in `acquiringPc` is non-idle. -/
theorem acquiring_le_nonIdle (ws : List WorkerSt) :
    pcCount ws (fun w => acquiringPc w.pc) ≤
      pcCount ws (fun w => nonIdlePc w.pc) :=
  pcCount_mono ws _ _ (by
    intro w
    cases w.pc <;> simp [acquiringPc, nonIdlePc])

/-- Every holder of channel `c` has that channel's counter incremented. -/
theorem holding_le_chanHeld (ws : List WorkerSt) (c : String) :
    pcCount ws (holdingOn c) ≤
      pcCount ws (fun w => w.cid = c && chanHeldPc w.pc) :=
  pcCount_mono ws _ _ (by
    intro w hw
    simp only [holdingOn] at hw
    cases hpc : w.pc <;> simp_all [holdingPc, chanHeldPc])

theorem semInv_step (maxG maxC : Nat) (s s' : SemSys)
    (hinv : semInv maxG maxC s) (hstep : SemStep maxG maxC s s') :
    semInv maxG maxC s' := by
  obtain ⟨h1, h2, h3, h4⟩ := hinv
  cases hstep with
  | incrGlobalOk l₁ l₂ c g ch hg =>
    unfold semInv
    dsimp only at h1 h2 h3 h4 ⊢
    have eN := pcCount_sandwich_ft l₁ l₂ ⟨.idle, c⟩ ⟨.gotGlobal, c⟩
      (fun w => nonIdlePc w.pc) rfl rfl
    have eA := pcCount_sandwich_ft l₁ l₂ ⟨.idle, c⟩ ⟨.gotGlobal, c⟩
      (fun w => acquiringPc w.pc) rfl rfl
    have hmono := acquiring_le_nonIdle (l₁ ++ [⟨WorkerPc.idle, c⟩] ++ l₂)
    refine ⟨by omega, ?_, by omega, ?_⟩
    · intro c'
      have eC := pcCount_sandwich_same l₁ l₂ ⟨.idle, c⟩ ⟨.gotGlobal, c⟩
        (fun w => w.cid = c' && chanHeldPc w.pc) rfl
      have := h2 c'
      omega
    · intro c'
      have eH := pcCount_sandwich_same l₁ l₂ ⟨.idle, c⟩ ⟨.gotGlobal, c⟩
        (holdingOn c') rfl
      have := h4 c'
      omega
  | incrGlobalFail l₁ l₂ c g ch hg =>
    unfold semInv
    dsimp only at h1 h2 h3 h4 ⊢
    have eN := pcCount_sandwich_ft l₁ l₂ ⟨.idle, c⟩ ⟨.backoffGlobal, c⟩
      (fun w => nonIdlePc w.pc) rfl rfl
    have eA := pcCount_sandwich_same l₁ l₂ ⟨.idle, c⟩ ⟨.backoffGlobal, c⟩
      (fun w => acquiringPc w.pc) rfl
    refine ⟨by omega, ?_, by omega, ?_⟩
    · intro c'
      have eC := pcCount_sandwich_same l₁ l₂ ⟨.idle, c⟩ ⟨.backoffGlobal, c⟩
        (fun w => w.cid = c' && chanHeldPc w.pc) rfl
      have := h2 c'
      omega
    · intro c'
      have eH := pcCount_sandwich_same l₁ l₂ ⟨.idle, c⟩ ⟨.backoffGlobal, c⟩
        (holdingOn c') rfl
      have := h4 c'
      omega
  | decrGlobalBackoff l₁ l₂ c g ch =>
    unfold semInv
    dsimp only at h1 h2 h3 h4 ⊢
    have eN := pcCount_sandwich_tf l₁ l₂ ⟨.backoffGlobal, c⟩ ⟨.idle, c⟩
      (fun w => nonIdlePc w.pc) rfl rfl
    have eA := pcCount_sandwich_same l₁ l₂ ⟨.backoffGlobal, c⟩ ⟨.idle, c⟩
      (fun w => acquiringPc w.pc) rfl
    refine ⟨by omega, ?_, by omega, ?_⟩
    · intro c'
      have eC := pcCount_sandwich_same l₁ l₂ ⟨.backoffGlobal, c⟩ ⟨.idle, c⟩
        (fun w => w.cid = c' && chanHeldPc w.pc) rfl
      have := h2 c'
      omega
    · intro c'
      have eH := pcCount_sandwich_same l₁ l₂ ⟨.backoffGlobal, c⟩ ⟨.idle, c⟩
        (holdingOn c') rfl
      have := h4 c'
      omega
  | incrChanOk l₁ l₂ c g ch hc =>
    unfold semInv
    dsimp only at h1 h2 h3 h4 ⊢
    have eN := pcCount_sandwich_same l₁ l₂ ⟨.gotGlobal, c⟩ ⟨.holding, c⟩
      (fun w => nonIdlePc w.pc) rfl
    have eA := pcCount_sandwich_same l₁ l₂ ⟨.gotGlobal, c⟩ ⟨.holding, c⟩
      (fun w => acquiringPc w.pc) rfl
    refine ⟨by omega, ?_, by omega, ?_⟩
    · intro c'
      have h2' := h2 c'
      by_cases hcc : c' = c
      · subst hcc
        rw [Function.update_same]
        have eC := pcCount_sandwich_ft l₁ l₂ ⟨.gotGlobal, c'⟩ ⟨.holding, c'⟩
          (fun w => w.cid = c' && chanHeldPc w.pc)
          (by simp [chanHeldPc]) (by simp [chanHeldPc])
        omega
      · rw [Function.update_noteq hcc]
        have eC := pcCount_sandwich_same l₁ l₂ ⟨.gotGlobal, c⟩ ⟨.holding, c⟩
          (fun w => w.cid = c' && chanHeldPc w.pc)
          (by simp [chanHeldPc, show ¬(c = c') from fun h => hcc h.symm])
        omega
    · intro c'
      have h4' := h4 c'
      by_cases hcc : c' = c
      · subst hcc
        have eH := pcCount_sandwich_ft l₁ l₂ ⟨.gotGlobal, c'⟩ ⟨.holding, c'⟩
          (holdingOn c') (by simp [holdingOn, holdingPc])
          (by simp [holdingOn, holdingPc])
        have hmono := holding_le_chanHeld
          (l₁ ++ [⟨WorkerPc.gotGlobal, c'⟩] ++ l₂) c'
        have h2c := h2 c'
        omega
      · have eH := pcCount_sandwich_same l₁ l₂ ⟨.gotGlobal, c⟩ ⟨.holding, c⟩
          (holdingOn c')
          (by simp [holdingOn, holdingPc,
            show ¬(c = c') from fun h => hcc h.symm])
        omega
  | incrChanFail l₁ l₂ c g ch hc =>
    unfold semInv
    dsimp only at h1 h2 h3 h4 ⊢
    have eN := pcCount_sandwich_same l₁ l₂ ⟨.gotGlobal, c⟩
      ⟨.backoffChanC, c⟩ (fun w => nonIdlePc w.pc) rfl
    have eA := pcCount_sandwich_same l₁ l₂ ⟨.gotGlobal, c⟩
      ⟨.backoffChanC, c⟩ (fun w => acquiringPc w.pc) rfl
    refine ⟨by omega, ?_, by omega, ?_⟩
    · intro c'
      have h2' := h2 c'
      by_cases hcc : c' = c
      · subst hcc
        rw [Function.update_same]
        have eC := pcCount_sandwich_ft l₁ l₂ ⟨.gotGlobal, c'⟩
          ⟨.backoffChanC, c'⟩ (fun w => w.cid = c' && chanHeldPc w.pc)
          (by simp [chanHeldPc]) (by simp [chanHeldPc])
        omega
      · rw [Function.update_noteq hcc]
        have eC := pcCount_sandwich_same l₁ l₂ ⟨.gotGlobal, c⟩
          ⟨.backoffChanC, c⟩ (fun w => w.cid = c' && chanHeldPc w.pc)
          (by simp [chanHeldPc, show ¬(c = c') from fun h => hcc h.symm])
        omega
    · intro c'
      have eH := pcCount_sandwich_same l₁ l₂ ⟨.gotGlobal, c⟩
        ⟨.backoffChanC, c⟩ (holdingOn c') (by simp [holdingOn, holdingPc])
      have := h4 c'
      omega
  | decrChanBackoff l₁ l₂ c g ch =>
    unfold semInv
    dsimp only at h1 h2 h3 h4 ⊢
    have eN := pcCount_sandwich_same l₁ l₂ ⟨.backoffChanC, c⟩
      ⟨.backoffChanG, c⟩ (fun w => nonIdlePc w.pc) rfl
    have eA := pcCount_sandwich_same l₁ l₂ ⟨.backoffChanC, c⟩
      ⟨.backoffChanG, c⟩ (fun w => acquiringPc w.pc) rfl
    refine ⟨by omega, ?_, by omega, ?_⟩
    · intro c'
      have h2' := h2 c'
      by_cases hcc : c' = c
      · subst hcc
        rw [Function.update_same]
        have eC := pcCount_sandwich_tf l₁ l₂ ⟨.backoffChanC, c'⟩
          ⟨.backoffChanG, c'⟩ (fun w => w.cid = c' && chanHeldPc w.pc)
          (by simp [chanHeldPc]) (by simp [chanHeldPc])
        omega
      · rw [Function.update_noteq hcc]
        have eC := pcCount_sandwich_same l₁ l₂ ⟨.backoffChanC, c⟩
          ⟨.backoffChanG, c⟩ (fun w => w.cid = c' && chanHeldPc w.pc)
          (by simp [chanHeldPc, show ¬(c = c') from fun h => hcc h.symm])
        omega
    · intro c'
      have eH := pcCount_sandwich_same l₁ l₂ ⟨.backoffChanC, c⟩
        ⟨.backoffChanG, c⟩ (holdingOn c') (by simp [holdingOn, holdingPc])
      have := h4 c'
      omega
  | decrChanGlobal l₁ l₂ c g ch =>
    unfold semInv
    dsimp only at h1 h2 h3 h4 ⊢
    have eN := pcCount_sandwich_tf l₁ l₂ ⟨.backoffChanG, c⟩ ⟨.idle, c⟩
      (fun w => nonIdlePc w.pc) rfl rfl
    have eA := pcCount_sandwich_tf l₁ l₂ ⟨.backoffChanG, c⟩ ⟨.idle, c⟩
      (fun w => acquiringPc w.pc) rfl rfl
    refine ⟨by omega, ?_, by omega, ?_⟩
    · intro c'
      have eC := pcCount_sandwich_same l₁ l₂ ⟨.backoffChanG, c⟩ ⟨.idle, c⟩
        (fun w => w.cid = c' && chanHeldPc w.pc) rfl
      have := h2 c'
      omega
    · intro c'
      have eH := pcCount_sandwich_same l₁ l₂ ⟨.backoffChanG, c⟩ ⟨.idle, c⟩
        (holdingOn c') rfl
      have := h4 c'
      omega
  | release l₁ l₂ c g ch =>
    unfold semInv
    dsimp only at h1 h2 h3 h4 ⊢
    have eN := pcCount_sandwich_tf l₁ l₂ ⟨.holding, c⟩ ⟨.idle, c⟩
      (fun w => nonIdlePc w.pc) rfl rfl
    have eA := pcCount_sandwich_tf l₁ l₂ ⟨.holding, c⟩ ⟨.idle, c⟩
      (fun w => acquiringPc w.pc) rfl rfl
    refine ⟨by omega, ?_, by omega, ?_⟩
    · intro c'
      have h2' := h2 c'
      by_cases hcc : c' = c
      · subst hcc
        rw [Function.update_same]
        have eC := pcCount_sandwich_tf l₁ l₂ ⟨.holding, c'⟩ ⟨.idle, c'⟩
          (fun w => w.cid = c' && chanHeldPc w.pc)
          (by simp [chanHeldPc]) (by simp [chanHeldPc])
        omega
      · rw [Function.update_noteq hcc]
        have eC := pcCount_sandwich_same l₁ l₂ ⟨.holding, c⟩ ⟨.idle, c⟩
          (fun w => w.cid = c' && chanHeldPc w.pc)
          (by simp [chanHeldPc, show ¬(c = c') from fun h => hcc h.symm])
        omega
    · intro c'
      have h4' := h4 c'
      by_cases hcc : c' = c
      · subst hcc
        have eH := pcCount_sandwich_tf l₁ l₂ ⟨.holding, c'⟩ ⟨.idle, c'⟩
          (holdingOn c') (by simp [holdingOn, holdingPc])
          (by simp [holdingOn, holdingPc])
        omega
      · have eH := pcCount_sandwich_same l₁ l₂ ⟨.holding, c⟩ ⟨.idle, c⟩
          (holdingOn c')
          (by simp [holdingOn, holdingPc,
            show ¬(c = c') from fun h => hcc h.symm])
        omega

theorem semInv_reachable (maxG maxC : Nat) (s0 s : SemSys)
    (h0 : SemInit s0)
    (hr : Relation.ReflTransGen (SemStep maxG maxC) s0 s) :
    semInv maxG maxC s := by
  induction hr with
  | refl => exact semInv_init maxG maxC s0 h0
  | tail _ hstep ih => exact semInv_step maxG maxC _ _ ih hstep

/-- A job returned by `pullNextMemoryJob`'s scan passed the `canTake`
check. -/
theorem pullNext_go_canTake (canTake : DetectionJobData → Bool) :
    ∀ (ids : List String) (q q' : MemQueue) (id : String)
      (data : DetectionJobData),
      pullNextMemoryJob.go canTake ids q = (q', some (id, data)) →
      canTake data = true := by
  intro ids
  induction ids with
  | nil =>
    intro q q' id data h
    simp [pullNextMemoryJob.go] at h
  | cons i rest ih =>
    intro q q' id data h
    unfold pullNextMemoryJob.go at h
    cases hget : mapGet q.jobs i with
    | none =>
      rw [hget] at h
      exact ih _ _ _ _ h
    | some job =>
      rw [hget] at h
      dsimp only at h
      split at h
      · exact ih _ _ _ _ h
      · split at h
        · exact ih _ _ _ _ h
        · next hck =>
          rw [Prod.mk.injEq, Option.some.injEq, Prod.mk.injEq] at h
          obtain ⟨-, -, hdata⟩ := h
          subst hdata
          simpa using hck

/-- A job returned by `pullNextMemoryJob` passed the `canTake` check. -/
theorem pullNextMemoryJob_canTake (q : MemQueue)
    (ct : DetectionJobData → Bool) (q' : MemQueue) (id : String)
    (data : DetectionJobData)
    (h : pullNextMemoryJob q ct = (q', some (id, data))) :
    ct data = true := by
  unfold pullNextMemoryJob at h
  split at h
  · rw [Prod.mk.injEq] at h
    exact absurd h.2 (by simp)
  · exact pullNext_go_canTake ct q.waitingIds q q' id data h

theorem runningOn_append (c : String) (l₁ l₂ : List (String × String)) :
    runningOn c (l₁ ++ l₂) = runningOn c l₁ + runningOn c l₂ := by
  simp [runningOn, List.filter_append]

theorem runningOn_cons (c : String) (j : String × String)
    (l : List (String × String)) :
    runningOn c (j :: l) =
      (if j.2 = c then 1 else 0) + runningOn c l := by
  by_cases h : j.2 = c
  · rw [show (if j.2 = c then 1 else 0) = 1 from if_pos h]
    simp only [runningOn, List.filter_cons]
    rw [if_pos (by simpa using h)]
    simp only [List.length_cons]
    omega
  · simp [runningOn, List.filter_cons, h]

/-- Coupling invariant of the in-memory worker loop:
`memoryChannelActiveCounts` counts the running jobs of each channel, and
the bounds hold. -/
def memInv (maxG maxC : Nat) (s : MemWorkerSys) : Prop :=
  (∀ c, s.channelActive c = runningOn c s.running) ∧
  s.running.length ≤ maxG ∧
  (∀ c, runningOn c s.running ≤ maxC)

theorem memInv_init (maxG maxC : Nat) (s : MemWorkerSys)
    (h : MemWorkerInit s) : memInv maxG maxC s := by
  obtain ⟨hrun, hact⟩ := h
  refine ⟨?_, ?_, ?_⟩
  · intro c
    rw [hact c, hrun]
    rfl
  · rw [hrun]
    exact Nat.zero_le _
  · intro c
    rw [hrun]
    exact Nat.zero_le _

theorem memInv_step (maxG maxC : Nat) (s s' : MemWorkerSys)
    (hinv : memInv maxG maxC s) (hstep : MemStep maxG maxC s s') :
    memInv maxG maxC s' := by
  obtain ⟨h1, h2, h3⟩ := hinv
  cases hstep with
  | launch s q' id data hpull =>
    have hct := pullNextMemoryJob_canTake _ _ _ _ _ hpull
    unfold memCanTake at hct
    rw [Bool.and_eq_true, decide_eq_true_eq, decide_eq_true_eq] at hct
    obtain ⟨hglt, hclt⟩ := hct
    rw [h1 data.channelId] at hclt
    unfold memInv
    dsimp only
    refine ⟨?_, ?_, ?_⟩
    · intro c
      unfold increaseMemoryChannelActive
      rw [runningOn_cons]
      by_cases hc : c = data.channelId
      · subst hc
        rw [Function.update_same, h1 data.channelId,
          if_pos (show ((id, data.channelId).2 = data.channelId) from rfl)]
        omega
      · rw [Function.update_noteq hc, h1 c,
          if_neg (show ¬((id, data.channelId).2 = c) from
            fun hcon => hc hcon.symm)]
        omega
    · simpa using hglt
    · intro c
      rw [runningOn_cons]
      by_cases hcd : data.channelId = c
      · subst hcd
        rw [if_pos (show ((id, data.channelId).2 = data.channelId)
          from rfl)]
        omega
      · rw [if_neg (show ¬((id, data.channelId).2 = c) from hcd)]
        have := h3 c
        omega
  | complete q l₁ l₂ id c f success =>
    unfold memInv at *
    dsimp only at h1 h2 h3 ⊢
    have hsand : ∀ c', runningOn c' (l₁ ++ [(id, c)] ++ l₂) =
        runningOn c' (l₁ ++ l₂) + (if c = c' then 1 else 0) := by
      intro c'
      rw [runningOn_append, runningOn_append, runningOn_append,
        runningOn_cons, show runningOn c' [] = 0 from rfl]
      rcases eq_or_ne c c' with h | h
      · rw [if_pos h]
        omega
      · rw [if_neg h]
        omega
    have hlen : (l₁ ++ [(id, c)] ++ l₂).length = (l₁ ++ l₂).length + 1 := by
      simp only [List.length_append, List.length_cons, List.length_nil]
      omega
    refine ⟨?_, by omega, ?_⟩
    · intro c'
      unfold decreaseMemoryChannelActive
      have h1c := h1 c
      have h1c' := h1 c'
      rw [hsand c] at h1c
      rw [hsand c'] at h1c'
      by_cases hc : c' = c
      · subst hc
        rw [if_pos rfl] at h1c h1c'
        split
        · rw [Function.update_same]
          omega
        · rw [Function.update_same]
          omega
      · rw [if_neg (fun hcon => hc hcon.symm)] at h1c'
        split <;> rw [Function.update_noteq hc] <;> omega
    · intro c'
      have := h3 c'
      rw [hsand c'] at this
      omega
  | queueEvolve s q' =>
    exact ⟨h1, h2, h3⟩

theorem memInv_reachable (maxG maxC : Nat) (s0 s : MemWorkerSys)
    (h0 : MemWorkerInit s0)
    (hr : Relation.ReflTransGen (MemStep maxG maxC) s0 s) :
    memInv maxG maxC s := by
  induction hr with
  | refl => exact memInv_init maxG maxC s0 h0
  | tail _ hstep ih => exact memInv_step maxG maxC _ _ ih hstep

/-- Claim C6: at every reachable state of either backend, the number of
jobs in the PROBING state (holding both admission slots) is at most
`maxGlobalConcurrency`, and per channel at most `channelConcurrency` —
for the Redis semaphore protocol (`acquireSlots`/`releaseSlots`,
global-first with release-and-retry on per-channel contention) and for the
in-memory loop (`processMemoryQueue` pulls a job only when both the
running count and the channel's active count are below their limits). -/
theorem claim_C6_admission_bounds :
    (∀ (maxG maxC : Nat) (s0 s : SemSys), SemInit s0 →
      Relation.ReflTransGen (SemStep maxG maxC) s0 s →
      pcCount s.workers (fun w => holdingPc w.pc) ≤ maxG ∧
      ∀ c, pcCount s.workers (holdingOn c) ≤ maxC) ∧
    (∀ (maxG maxC : Nat) (s0 s : MemWorkerSys), MemWorkerInit s0 →
      Relation.ReflTransGen (MemStep maxG maxC) s0 s →
      s.running.length ≤ maxG ∧ ∀ c, runningOn c s.running ≤ maxC) := by
  constructor
  · intro maxG maxC s0 s h0 hr
    obtain ⟨-, -, hacq, hchan⟩ := semInv_reachable maxG maxC s0 s h0 hr
    refine ⟨le_trans ?_ hacq, hchan⟩
    exact pcCount_mono _ _ _ (by
      intro w
      cases w.pc <;> simp [holdingPc, acquiringPc])
  · intro maxG maxC s0 s h0 hr
    obtain ⟨-, hlen, hchan⟩ := memInv_reachable maxG maxC s0 s h0 hr
    exact ⟨hlen, hchan⟩

/-- Fixture: in-memory queue holding one waiting job. -/
def claimC6Queue : MemQueue :=
  { jobs := [("j1", { id := "j1", data := sampleJobData
                      state := MemoryJobState.waiting })]
    waitingIds := ["j1"], activeIds := []
    completedCount := 0, failedCount := 0, stopped := false }

/-- Fixture: the queue after the worker pulled that job. -/
def claimC6QueueAfter : MemQueue :=
  { jobs := [("j1", { id := "j1", data := sampleJobData
                      state := MemoryJobState.active })]
    waitingIds := [], activeIds := ["j1"]
    completedCount := 0, failedCount := 0, stopped := false }

/-- Witness for claim C6 at reachable states of both backends with
`maxGlobalConcurrency = 2`, `channelConcurrency = 1`: one Redis worker
past the global `INCR`, and one in-memory worker running a pulled job. -/
theorem claim_C6_admission_bounds_witness :
    pcCount [⟨WorkerPc.gotGlobal, "ch1"⟩] (fun w => holdingPc w.pc) ≤ 2 ∧
    pcCount [⟨WorkerPc.gotGlobal, "ch1"⟩] (holdingOn "ch1") ≤ 1 ∧
    ([("j1", "c1")] : List (String × String)).length ≤ 2 ∧
    runningOn "c1" [("j1", "c1")] ≤ 1 := by
  have hsem := claim_C6_admission_bounds.1 2 1
    ⟨0, fun _ => 0, [⟨WorkerPc.idle, "ch1"⟩]⟩
    ⟨1, fun _ => 0, [⟨WorkerPc.gotGlobal, "ch1"⟩]⟩
    ⟨rfl, fun _ => rfl, by
      intro w hw
      simp only [List.mem_singleton] at hw
      rw [hw]⟩
    (Relation.ReflTransGen.tail Relation.ReflTransGen.refl
      (SemStep.incrGlobalOk [] [] "ch1" 0 (fun _ => 0) (by norm_num)))
  have hmem := claim_C6_admission_bounds.2 2 1
    ⟨MemQueue.empty, [], fun _ => 0⟩
    ⟨claimC6QueueAfter, [("j1", "c1")],
      increaseMemoryChannelActive (fun _ => 0) "c1"⟩
    ⟨rfl, fun _ => rfl⟩
    (Relation.ReflTransGen.tail
      (Relation.ReflTransGen.tail Relation.ReflTransGen.refl
        (MemStep.queueEvolve ⟨MemQueue.empty, [], fun _ => 0⟩ claimC6Queue))
      (MemStep.launch ⟨claimC6Queue, [], fun _ => 0⟩ claimC6QueueAfter
        "j1" sampleJobData (by decide)))
  exact ⟨hsem.1, hsem.2 "ch1", hmem.1, hmem.2 "c1"⟩

end ModelCheck
